import Mathlib

set_option maxRecDepth 100000

/-!
Verification development for the govfs in-memory virtual filesystem
(package `govfs`, file govfs.go).

The embedding models the serving-state semantics of the public facade and
its single dispatcher.  Because the dispatcher is the single consumer of the
request queue and every facade call blocks on its reply channel, a facade
call together with its dispatcher handler acts as one atomic state
transition; the model composes them sequentially.

Bytes are modelled as `Nat` values below 256 in `List Nat`; Go strings are
Lean `String`s, converted to bytes by `strBytes` (the paths exercised by the
specification are ASCII, for which `Char.toNat` agrees with UTF-8 bytes).
The `uint` counter `t_size` is a `Nat` taken modulo `2 ^ 64` exactly where
Go's wrapping arithmetic applies.
-/

/-! ### MD5 (crypto/md5 + encoding/hex), backing the digest function `s` -/

/-- Mask to 32 bits, Go `uint32` truncation. -/
def w32 (n : Nat) : Nat := n % 4294967296

/-- Rotate a 32-bit value left by `n` bits (0 < n < 32). -/
def rotl32 (x n : Nat) : Nat := w32 (x * 2 ^ n) + x / 2 ^ (32 - n)

/-- Per-step constants of MD5 (RFC 1321 T table). -/
def md5K : List Nat :=
  [0xd76aa478, 0xe8c7b756, 0x242070db, 0xc1bdceee,
   0xf57c0faf, 0x4787c62a, 0xa8304613, 0xfd469501,
   0x698098d8, 0x8b44f7af, 0xffff5bb1, 0x895cd7be,
   0x6b901122, 0xfd987193, 0xa679438e, 0x49b40821,
   0xf61e2562, 0xc040b340, 0x265e5a51, 0xe9b6c7aa,
   0xd62f105d, 0x02441453, 0xd8a1e681, 0xe7d3fbc8,
   0x21e1cde6, 0xc33707d6, 0xf4d50d87, 0x455a14ed,
   0xa9e3e905, 0xfcefa3f8, 0x676f02d9, 0x8d2a4c8a,
   0xfffa3942, 0x8771f681, 0x6d9d6122, 0xfde5380c,
   0xa4beea44, 0x4bdecfa9, 0xf6bb4b60, 0xbebfbc70,
   0x289b7ec6, 0xeaa127fa, 0xd4ef3085, 0x04881d05,
   0xd9d4d039, 0xe6db99e5, 0x1fa27cf8, 0xc4ac5665,
   0xf4292244, 0x432aff97, 0xab9423a7, 0xfc93a039,
   0x655b59c3, 0x8f0ccc92, 0xffeff47d, 0x85845dd1,
   0x6fa87e4f, 0xfe2ce6e0, 0xa3014314, 0x4e0811a1,
   0xf7537e82, 0xbd3af235, 0x2ad7d2bb, 0xeb86d391]

/-- Per-step left-rotation amounts of MD5. -/
def md5S : List Nat :=
  [7, 12, 17, 22, 7, 12, 17, 22, 7, 12, 17, 22, 7, 12, 17, 22,
   5, 9, 14, 20, 5, 9, 14, 20, 5, 9, 14, 20, 5, 9, 14, 20,
   4, 11, 16, 23, 4, 11, 16, 23, 4, 11, 16, 23, 4, 11, 16, 23,
   6, 10, 15, 21, 6, 10, 15, 21, 6, 10, 15, 21, 6, 10, 15, 21]

/-- Little-endian byte decomposition of `v` into `n` bytes. -/
def leBytes (n v : Nat) : List Nat :=
  (List.range n).map (fun i => v / 2 ^ (8 * i) % 256)

/-- Word `j` (little-endian 32-bit) of a 64-byte block. -/
def wordAt (blk : List Nat) (j : Nat) : Nat :=
  blk.getD (4 * j) 0 + 256 * blk.getD (4 * j + 1) 0 +
    65536 * blk.getD (4 * j + 2) 0 + 16777216 * blk.getD (4 * j + 3) 0

/-- One MD5 compression step (step index `i`, message words `M`). -/
def md5step (M : Nat → Nat) (st : Nat × Nat × Nat × Nat) (i : Nat) :
    Nat × Nat × Nat × Nat :=
  let a := st.1
  let b := st.2.1
  let c := st.2.2.1
  let d := st.2.2.2
  let fg : Nat × Nat :=
    if i < 16 then ((b &&& c) ||| ((b ^^^ 0xffffffff) &&& d), i)
    else if i < 32 then ((d &&& b) ||| ((d ^^^ 0xffffffff) &&& c), (5 * i + 1) % 16)
    else if i < 48 then (b ^^^ c ^^^ d, (3 * i + 5) % 16)
    else (c ^^^ (b ||| (d ^^^ 0xffffffff)), (7 * i) % 16)
  let f := w32 (fg.1 + a + md5K.getD i 0 + M fg.2)
  (d, w32 (b + rotl32 f (md5S.getD i 0)), b, c)

/-- MD5 compression of one 64-byte block onto the running state. -/
def md5block (st : Nat × Nat × Nat × Nat) (blk : List Nat) :
    Nat × Nat × Nat × Nat :=
  let r := (List.range 64).foldl (md5step (wordAt blk)) st
  (w32 (st.1 + r.1), w32 (st.2.1 + r.2.1),
   w32 (st.2.2.1 + r.2.2.1), w32 (st.2.2.2 + r.2.2.2))

/-- MD5 padding: 0x80, zeros to 56 mod 64, then the 8-byte LE bit length. -/
def md5pad (msg : List Nat) : List Nat :=
  msg ++ [0x80] ++ List.replicate ((120 - (msg.length + 1) % 64) % 64) 0 ++
    leBytes 8 (msg.length * 8)

/-- Split a byte list into 64-byte chunks; the fuel bounds the number of
chunks so the recursion is structural (and hence kernel-reducible). -/
def chunks64Aux : Nat → List Nat → List (List Nat)
  | 0, _ => []
  | _, [] => []
  | fuel + 1, x :: xs => (x :: xs.take 63) :: chunks64Aux fuel (xs.drop 63)

/-- Split a byte list into 64-byte chunks. -/
def chunks64 (l : List Nat) : List (List Nat) := chunks64Aux l.length l

/-- MD5 digest (16 bytes) of a byte list. -/
def md5bytes (msg : List Nat) : List Nat :=
  let r := (chunks64 (md5pad msg)).foldl md5block
    (0x67452301, 0xefcdab89, 0x98badcfe, 0x10325476)
  leBytes 4 r.1 ++ leBytes 4 r.2.1 ++ leBytes 4 r.2.2.1 ++ leBytes 4 r.2.2.2

/-- Lowercase hex digit, as `encoding/hex` produces. -/
def hexDigit (n : Nat) : Char :=
  if n < 10 then Char.ofNat (48 + n) else Char.ofNat (87 + n)

/-- Lowercase hex encoding of a byte list (`hex.EncodeToString`). -/
def hexOfBytes (l : List Nat) : String :=
  String.mk ((l.map (fun b => [hexDigit (b / 16), hexDigit (b % 16)])).flatten)

/-- Bytes of an ASCII string (agrees with Go's UTF-8 bytes on ASCII input). -/
def strBytes (x : String) : List Nat := x.data.map Char.toNat

/-- Digest of a raw byte payload with the `gofs_magic` salt; the source's
`s(string(data))` where `data` is a byte slice. -/
def sBytes (d : List Nat) : String := hexOfBytes (md5bytes (d ++ strBytes "gofs_magic"))

/-- Path digest `s` of govfs.go: hex MD5 of `name + "gofs_magic"`. -/
def s (name : String) : String := sBytes (strBytes name)

/-! ### Data model (FSHeader, govfsFile) and the namespace map

The Go namespace is `map[string]*govfsFile`; deletion re-binds a key to
`nil`, so a key can be present yet hold no file.  The model is an
association list from digest keys to `Option govfsFile` (`none` is a `nil`
slot); `mset` is Go map assignment, `mdel` is Go `delete`. -/

/-- Flag constants of govfs.go (FlagVal, `1 <<< iota`). -/
def FLAG_FILE : Nat := 1

/-- Directory kind bit. -/
def FLAG_DIRECTORY : Nat := 2

/-- Whole-image compression flag. -/
def FLAG_COMPRESS : Nat := 4

/-- Whole-image encryption flag. -/
def FLAG_ENCRYPT : Nat := 8

/-- Constructor load-mode flag. -/
def FLAG_DB_LOAD : Nat := 16

/-- Constructor create-mode flag. -/
def FLAG_DB_CREATE : Nat := 32

/-- Per-file compression flag for the snapshot stream. -/
def FLAG_COMPRESS_FILES : Nat := 64

/-- Maximum path length accepted by `Create`. -/
def MAX_FILENAME_LENGTH : Nat := 256

/-- Go `uint` modulus (64-bit). -/
def U64 : Nat := 18446744073709551616

/-- In-memory file entry (`govfsFile`); the per-entry mutex and the back
channel carry no state observable in the sequential model. -/
structure govfsFile where
  filename : String
  flags : Nat
  datasum : String
  data : List Nat
deriving DecidableEq

/-- The namespace map: digest key to entry, `none` modelling a `nil` slot. -/
def Meta : Type := List (String × Option govfsFile)

instance : DecidableEq Meta := fun a b => List.hasDecEq a b

/-- Filesystem header (`FSHeader`); the ingress channel and mutexes are not
part of the sequential state. -/
structure FSHeader where
  filename : String
  meta : Meta
  t_size : Nat
  flags : Nat
deriving DecidableEq

/-- Go map read: `some v` when the key is present (v may be `none`). -/
def mget : Meta → String → Option (Option govfsFile)
  | [], _ => none
  | (k, v) :: t, key => if k = key then some v else mget t key

/-- Go map assignment: replace the binding or append a fresh one. -/
def mset : Meta → String → Option govfsFile → Meta
  | [], key, v => [(key, v)]
  | (k, w) :: t, key, v => if k = key then (key, v) :: t else (k, w) :: mset t key v

/-- Go `delete`: drop the binding of the key, if present. -/
def mdel : Meta → String → Meta
  | [], _ => []
  | (k, v) :: t, key => if k = key then t else (k, v) :: mdel t key

/-- Lookup `check`: the entry whose key is `s name`, treating both a missing
key and a `nil` slot as absence. -/
def check (st : FSHeader) (name : String) : Option govfsFile :=
  match mget st.meta (s name) with
  | some (some e) => some e
  | _ => none

/-- CreateDatabase in FLAG_DB_CREATE mode: fresh map holding only the root
entry (a zero-valued `govfsFile` with filename `/`). -/
def createDatabase (name : String) (flags : Nat) : FSHeader :=
  { filename := name
    meta := mset [] (s "/") (some { filename := "/", flags := 0, datasum := "", data := [] })
    t_size := 0
    flags := flags }

/-! ### Dispatcher and facade operations -/

/-- Success or error reply carried in an IRP status slot. -/
inductive OpResult
  | ok
  | err (msg : String)
deriving DecidableEq

/-- Go `strings.Split(xs, "/")` on the character list. -/
def splitSlash : List Char → List (List Char)
  | [] => [[]]
  | c :: t =>
    match splitSlash t with
    | [] => [[]]
    | h :: r => if c = '/' then [] :: h :: r else (c :: h) :: r

/-- Test of `string(name[len(name)-1:]) == "/"`: last byte is a slash. -/
def lastIsSlash (name : String) : Bool := (strBytes name).getLastD 0 == 47

/-- Proper-prefix components walked by the create handler:
`sub_strings[1 : len(sub_strings)-1]` of the slash-split path. -/
def subComponents (name : String) : List String :=
  let subs := (splitSlash name.data).map (fun l => String.mk l)
  (subs.drop 1).take (subs.length - 2)

/-- Directory entry synthesized for a missing ancestor `tmp`. -/
def subdirFile (tmp : String) : govfsFile :=
  { filename := tmp ++ "/", flags := FLAG_DIRECTORY, datasum := "", data := [] }

/-- The create handler's ancestor walk: for each component extend `tmp` and,
when `check tmp` finds nothing, insert a directory entry at key `s tmp`. -/
def ancestorLoop : FSHeader → List String → String → FSHeader
  | st, [], _ => st
  | st, c :: rest, tmp =>
    let tmp' := tmp ++ "/" ++ c
    let st' :=
      if (check st tmp').isSome then st
      else { st with meta := mset st.meta (s tmp') (some (subdirFile tmp')) }
    ancestorLoop st' rest tmp'

/-- Entry allocated by the create handler: kind classified from the last
byte of the request path. -/
def newCreateFile (name : String) : govfsFile :=
  { filename := name
    flags := if lastIsSlash name then FLAG_DIRECTORY else FLAG_FILE
    datasum := ""
    data := [] }

/-- IRP_CREATE handler.  `none` models a Go runtime panic: indexing
`name[len(name)-1:]` of an empty path, or `make([]string, n)` with a
negative size when the path has no slash (`len(sub_strings) - 2 < 0`). -/
def dispatchCreate (st : FSHeader) (name : String) : Option (FSHeader × govfsFile) :=
  if name.length = 0 then none
  else
    let st1 := { st with meta := mset st.meta (s name) (some (newCreateFile name)) }
    if (splitSlash name.data).length < 2 then none
    else some (ancestorLoop st1 (subComponents name) "", newCreateFile name)

/-- Facade `Create`: reject an existing path, then an over-long path, then
hand the IRP to the dispatcher (which always replies success). -/
def facadeCreate (st : FSHeader) (name : String) : Option (FSHeader × OpResult) :=
  if (check st name).isSome then some (st, .err "create: File already exists")
  else if MAX_FILENAME_LENGTH < name.length then
    some (st, .err "create: File name is too long")
  else
    match dispatchCreate st name with
    | none => none
    | some (st', _) => some (st', .ok)

/-- Payload replacement `writeInternal`: empty data is a no-op; otherwise
adjust `t_size` by the length delta with Go `uint` wrapping, replace the
payload in the slot that was looked up, refresh the content digest, and
return the new payload length. -/
def writeInternal (st : FSHeader) (key : String) (e : govfsFile) (data : List Nat) :
    FSHeader × Nat :=
  if data.length = 0 then (st, 0)
  else
    let t' :=
      if e.data.length ≤ data.length then (st.t_size + (data.length - e.data.length)) % U64
      else (st.t_size + (U64 - (e.data.length - data.length) % U64)) % U64
    ({ st with
        t_size := t'
        meta := mset st.meta key (some { e with data := data, datasum := sBytes data }) },
      data.length)

/-- Facade `Write` composed with the IRP_WRITE handler: absent paths are
rejected up front; otherwise the handler replaces the payload and reports
success iff the returned length matches the request. -/
def writeOp (st : FSHeader) (name : String) (d : List Nat) : FSHeader × OpResult :=
  match check st name with
  | none => (st, .err "write: Cannot write to nonexistent file")
  | some e =>
    let r := writeInternal st (s name) e d
    if r.2 = d.length then (r.1, .ok)
    else (r.1, .err "IRP_WRITE: Failed to write to filesystem")

/-- Facade `Delete` composed with the IRP_DELETE handler: no envelope for an
absent path; the root file is refused; otherwise the key is deleted and
re-bound to a `nil` slot. -/
def deleteOp (st : FSHeader) (name : String) : FSHeader × OpResult :=
  match check st name with
  | none => (st, .err "delete: File does not exist")
  | some e =>
    if e.filename = "/" then (st, .err "IRP_DELETE: Tried to delete the root file")
    else
      match check st name with
      | some _ => ({ st with meta := mset (mdel st.meta (s name)) (s name) none }, .ok)
      | none => (st, .err "IRP_DELETE generic error")

/-- Facade `Read`: copy out the payload of a non-directory entry. -/
def fsRead (st : FSHeader) (name : String) : Except String (List Nat) :=
  match check st name with
  | none => .error "read: File does not exist"
  | some e =>
    if e.flags &&& FLAG_DIRECTORY > 0 then .error "read: Cannot read a directory"
    else .ok e.data

/-! ### Reader view -/

/-- Reader handle: the target path and the running offset.  The Go struct
also caches the entry pointer; sequentially that pointer is exactly the
live `check` result, which is how the model reads it. -/
structure GoReader where
  rname : String
  offset : Nat
deriving DecidableEq

/-- Result channel of `Reader.Read`: Go's `error` being `nil`, `io.EOF`, or
a message. -/
inductive ReadRet
  | noErr
  | eofErr
  | errMsg (m : String)
deriving DecidableEq

/-- Go `copy(dst, src)`: overwrite the first `min` bytes of `dst`. -/
def goCopy (dst src : List Nat) : List Nat :=
  src.take (min dst.length src.length) ++ dst.drop (min dst.length src.length)

/-- Reader.Read: returns the reported count, the error value, the buffer
after the copy, and the advanced reader. -/
def readerRead (st : FSHeader) (rd : GoReader) (r : List Nat) :
    Nat × ReadRet × List Nat × GoReader :=
  if rd.rname = "" ∨ (check st rd.rname).isNone ∨
      ((check st rd.rname).elim 0 (fun e => e.data.length)) < 1 then
    (0, .noErr, r, rd)
  else
    match fsRead st rd.rname with
    | .error m => (0, .errMsg m, r, rd)
    | .ok data =>
      if data.length = 0 then (0, .noErr, r, rd)
      else if r.length < data.length then
        (data.length - r.length - 1, .noErr,
          goCopy r (data.take (data.length - r.length - 1)),
          { rd with offset := rd.offset + r.length })
      else
        (data.length, .eofErr, goCopy r data, rd)

/-! ### Counters and snapshot-stream transforms -/

/-- GetFileCount: the number of keys in the map, dead (`nil`) slots
included, exactly as `for range f.meta` counts. -/
def GetFileCount (st : FSHeader) : Nat := st.meta.length

/-- GetTotalFilesizes: the running aggregate counter. -/
def GetTotalFilesizes (st : FSHeader) : Nat := st.t_size

/-- GetFileSize: payload length of the entry found by `check`. -/
def GetFileSize (st : FSHeader) (name : String) : Option Nat :=
  (check st name).map (fun e => e.data.length)

/-- File count UnmountDB serializes into the stream header:
`f.GetFileCount() - 1`, the root discounted but dead slots included. -/
def unmountTotalFiles (st : FSHeader) : Nat := GetFileCount st - 1

/-- writeFsStream with the gzip writer and the RC4 cipher as opaque
byte-transform parameters (their implementations are external packages).
The encrypt branch ciphers `data.Bytes()` — the untransformed input — not
the `compressed` buffer, exactly as the source does. -/
def writeFsStream (gz : List Nat → List Nat) (enc : List Nat → List Nat)
    (flags : Nat) (data : List Nat) : List Nat :=
  let compressed := if flags &&& FLAG_COMPRESS > 0 then gz data else data
  if flags &&& FLAG_ENCRYPT > 0 then enc data else compressed

/-- readFsStream with opaque gunzip (`Option` for failure) and RC4
decryption.  In the compress branch the source fills `b` with
`b.Read(plaintext)` — which reads from the empty buffer and writes nothing
into it — and then gunzips `b`, so the decompressor always sees an empty
stream; `none` models the resulting failure (gzip.NewReader returns an
error and the nil reader is then dereferenced). -/
def readFsStream (gunzip : List Nat → Option (List Nat))
    (dec : List Nat → List Nat) (flags : Nat) (raw : List Nat) : Option (List Nat) :=
  let plaintext := if flags &&& FLAG_ENCRYPT > 0 then dec raw else raw
  if flags &&& FLAG_COMPRESS > 0 then gunzip []
  else some plaintext

/-! ### Trace semantics: sequences of facade operations -/

/-- Facade mutating operations. -/
inductive FsOp
  | create (name : String)
  | write (name : String) (data : List Nat)
  | delete (name : String)
deriving DecidableEq

/-- Apply one facade call; `none` is a dispatcher panic (only `create` can
panic), a facade error leaves the state unchanged. -/
def applyFsOp (st : FSHeader) : FsOp → Option FSHeader
  | .create n => (facadeCreate st n).map (fun p => p.1)
  | .write n d => some (writeOp st n d).1
  | .delete n => some (deleteOp st n).1

/-- Run a sequence of facade calls from a state. -/
def runOps (st : FSHeader) : List FsOp → Option FSHeader
  | [] => some st
  | op :: rest =>
    match applyFsOp st op with
    | none => none
    | some st' => runOps st' rest

/-- Payload length of a map slot (a dead slot carries nothing). -/
def entrySize : Option govfsFile → Nat
  | none => 0
  | some e => e.data.length

/-- Sum of the payload lengths over every slot of the map. -/
def sumLens (l : Meta) : Nat := (l.map (fun kv => entrySize kv.2)).sum

/-- Sum of the payload lengths over the file-kind entries only.  Modelled
from the spec: "`TotalSize` equals the sum of payload lengths of every
file-kind entry"; kept for comparison against the code's counter. -/
def specFileKindSum (l : Meta) : Nat :=
  (l.map (fun kv =>
    match kv.2 with
    | some e => if e.flags &&& FLAG_FILE > 0 then e.data.length else 0
    | none => 0)).sum

/-- Byte length bound of every Go slice (`len` is a non-negative `int`). -/
def opSizeOk : FsOp → Prop
  | .write _ d => d.length < 2 ^ 63
  | _ => True

instance : DecidablePred opSizeOk := fun op =>
  match op with
  | .create _ => inferInstanceAs (Decidable True)
  | .write _ d => inferInstanceAs (Decidable (d.length < 2 ^ 63))
  | .delete _ => inferInstanceAs (Decidable True)

/-- Operations other than delete. -/
def opNotDelete : FsOp → Prop
  | .delete _ => False
  | _ => True

instance : DecidablePred opNotDelete := fun op =>
  match op with
  | .create _ => inferInstanceAs (Decidable True)
  | .write _ _ => inferInstanceAs (Decidable True)
  | .delete _ => inferInstanceAs (Decidable False)

/-! ### Derived definitions used by the development -/

/-- The root slot `s "/"` always holds a live entry named `/` whose flag
word is still zero: the constructor never marks the root as a directory
(nor as a file), and nothing afterwards mutates its flags. -/
def RootInv (st : FSHeader) : Prop :=
  ∃ e, mget st.meta (s "/") = some (some e) ∧ e.filename = "/" ∧ e.flags = 0

/-- The zero-valued root entry created by the constructor. -/
def rootFile : govfsFile := { filename := "/", flags := 0, datasum := "", data := [] }

/-- Inductive size invariant: the aggregate counter equals the wrapped sum of
all slot payload lengths, and every payload respects the Go slice bound. -/
def SizeOk (st : FSHeader) : Prop :=
  st.t_size = sumLens st.meta % U64 ∧
  ∀ k w, mget st.meta k = some w → entrySize w < 2 ^ 63

/-- Entry created for the directory path `/a/`. -/
def c2nf : govfsFile := newCreateFile "/a/"

/-- The same entry after the 2-byte write. -/
def c2nfW : govfsFile := { c2nf with data := [1, 2], datasum := sBytes [1, 2] }

/-- State after `Create("/a/")` on a fresh database. -/
def c2st1 : FSHeader :=
  { filename := "db"
    meta := [(s "/", some rootFile), (s "/a/", some c2nf), (s "/a", some (subdirFile "/a"))]
    t_size := 0
    flags := FLAG_DB_CREATE }

/-- State after the subsequent `Write("/a/", [1,2])`. -/
def c2st2 : FSHeader :=
  { c2st1 with
    meta := [(s "/", some rootFile), (s "/a/", some c2nfW), (s "/a", some (subdirFile "/a"))]
    t_size := 2 }

/-- State after the final `Delete("/a/")`. -/
def c2st3 : FSHeader :=
  { c2st2 with
    meta := [(s "/", some rootFile), (s "/a", some (subdirFile "/a")), (s "/a/", none)] }

/-- Intermediate state of the C2 witness trace. -/
def c2wMid : FSHeader :=
  { filename := "db"
    meta := [(s "/", some rootFile), (s "/a", some (newCreateFile "/a"))]
    t_size := 0
    flags := FLAG_DB_CREATE }

/-- Final state of the C2 witness trace. -/
def c2wFinal : FSHeader :=
  { c2wMid with
    meta := [(s "/", some rootFile),
             (s "/a", some { newCreateFile "/a" with data := [1, 2], datasum := sBytes [1, 2] })]
    t_size := 2 }

/-- The successive `tmp` values of the create handler's ancestor walk. -/
def tmpList : List String → String → List String
  | [], _ => []
  | c :: rest, tmp => (tmp ++ "/" ++ c) :: tmpList rest (tmp ++ "/" ++ c)

/-- Slash-separated proper prefixes of a created path, exactly as the
handler enumerates them (no trailing slash). -/
def subAncestors (name : String) : List String := tmpList (subComponents name) ""

/-- State after creating `/a/b` on a fresh database. -/
def c3st : FSHeader :=
  { filename := "db"
    meta := [(s "/", some rootFile), (s "/a/b", some (newCreateFile "/a/b")),
             (s "/a", some (subdirFile "/a"))]
    t_size := 0
    flags := FLAG_DB_CREATE }

/-- State after creating `/a/b/c` on a fresh database. -/
def c3wst : FSHeader :=
  { filename := "db"
    meta := [(s "/", some rootFile), (s "/a/b/c", some (newCreateFile "/a/b/c")),
             (s "/a", some (subdirFile "/a")), (s "/a/b", some (subdirFile "/a/b"))]
    t_size := 0
    flags := FLAG_DB_CREATE }

/-- File entry used by the C6 evaluation. -/
def c6file : govfsFile :=
  { filename := "/a/f", flags := 1, datasum := "", data := [1, 2, 3, 4, 5, 6, 7, 8, 9, 10] }

/-- Serving state holding the 10-byte file `/a/f`. -/
def c6st : FSHeader :=
  { filename := "db"
    meta := [(s "/", some rootFile), (s "/a/f", some c6file)]
    t_size := 10
    flags := FLAG_DB_CREATE }

/-- File entry used by the C7 witness. -/
def c7file : govfsFile := { filename := "/a", flags := 1, datasum := "", data := [7] }

/-- Serving state holding the file `/a`. -/
def c7st : FSHeader :=
  { filename := "db"
    meta := [(s "/", some rootFile), (s "/a", some c7file)]
    t_size := 1
    flags := FLAG_DB_CREATE }

/-- File entry used by the C9 witness. -/
def c9file : govfsFile := { filename := "/a", flags := 1, datasum := "", data := [1, 2, 3] }

/-- Serving state holding the file `/a`. -/
def c9st : FSHeader :=
  { filename := "db"
    meta := [(s "/", some rootFile), (s "/a", some c9file)]
    t_size := 3
    flags := FLAG_DB_CREATE }

/-! ### Map lemmas -/

theorem mget_mset_self (l : Meta) (k : String) (v : Option govfsFile) :
    mget (mset l k v) k = some v := by
  induction l with
  | nil => simp [mget, mset]
  | cons hd t ih =>
    obtain ⟨k0, w⟩ := hd
    by_cases h : k0 = k <;> simp [mget, mset, h, ih]

theorem mget_mset_ne (l : Meta) (k k' : String) (v : Option govfsFile)
    (h : k' ≠ k) : mget (mset l k v) k' = mget l k' := by
  induction l with
  | nil => simp [mget, mset, Ne.symm h]
  | cons hd t ih =>
    obtain ⟨k0, w⟩ := hd
    by_cases h0 : k0 = k
    · subst h0
      simp [mget, mset, Ne.symm h]
    · simp [mget, mset, h0, ih]

theorem mget_mdel_ne (l : Meta) (k k' : String) (h : k' ≠ k) :
    mget (mdel l k) k' = mget l k' := by
  induction l with
  | nil => simp [mdel]
  | cons hd t ih =>
    obtain ⟨k0, w⟩ := hd
    by_cases h0 : k0 = k
    · subst h0
      simp [mget, mdel, Ne.symm h]
    · simp [mget, mdel, h0, ih]

theorem length_mset_isSome (l : Meta) (k : String) (v : Option govfsFile)
    (h : (mget l k).isSome) : (mset l k v).length = l.length := by
  induction l with
  | nil => simp [mget] at h
  | cons hd t ih =>
    obtain ⟨k0, w⟩ := hd
    by_cases h0 : k0 = k
    · simp [mset, h0]
    · simp [mget, h0] at h
      simp [mset, h0, ih h]

theorem length_mdel_isSome (l : Meta) (k : String)
    (h : (mget l k).isSome) : (mdel l k).length + 1 = l.length := by
  induction l with
  | nil => simp [mget] at h
  | cons hd t ih =>
    obtain ⟨k0, w⟩ := hd
    by_cases h0 : k0 = k
    · simp [mdel, h0]
    · simp [mget, h0] at h
      simp [mdel, h0, ih h]

theorem sumLens_mset (l : Meta) (k : String) (v : Option govfsFile) :
    sumLens (mset l k v) + entrySize ((mget l k).getD none) =
      sumLens l + entrySize v := by
  induction l with
  | nil => simp [mget, mset, sumLens, entrySize]
  | cons hd t ih =>
    obtain ⟨k0, w⟩ := hd
    by_cases h0 : k0 = k
    · simp [mget, mset, sumLens, h0]
      omega
    · simp [mget, mset, sumLens, h0] at ih ⊢
      omega

theorem entrySize_le_sumLens (l : Meta) (k : String) (w : Option govfsFile)
    (h : mget l k = some w) : entrySize w ≤ sumLens l := by
  induction l with
  | nil => simp [mget] at h
  | cons hd t ih =>
    obtain ⟨k0, w0⟩ := hd
    by_cases h0 : k0 = k
    · simp [mget, h0] at h
      subst h
      simp [sumLens]
    · simp [mget, h0] at h
      have := ih h
      simp [sumLens] at this ⊢
      omega

theorem sumLens_mdel_of_mget (l : Meta) (k : String) (w : Option govfsFile)
    (h : mget l k = some w) :
    sumLens (mdel l k) + entrySize w = sumLens l := by
  induction l with
  | nil => simp [mget] at h
  | cons hd t ih =>
    obtain ⟨k0, w0⟩ := hd
    by_cases h0 : k0 = k
    · simp [mget, h0] at h
      subst h
      simp [mdel, h0, sumLens]
      omega
    · simp [mget, h0] at h
      have := ih h
      simp [mdel, h0, sumLens] at this ⊢
      omega

/-! ### Lookup helpers -/

theorem check_some_iff (st : FSHeader) (n : String) (e : govfsFile) :
    check st n = some e ↔ mget st.meta (s n) = some (some e) := by
  unfold check
  cases h : mget st.meta (s n) with
  | none => simp
  | some w => cases w <;> simp

theorem check_isSome_iff (st : FSHeader) (n : String) :
    (check st n).isSome ↔ ∃ e, mget st.meta (s n) = some (some e) := by
  unfold check
  cases h : mget st.meta (s n) with
  | none => simp
  | some w => cases w <;> simp

theorem check_none_entrySize (st : FSHeader) (n : String)
    (h : check st n = none) : entrySize ((mget st.meta (s n)).getD none) = 0 := by
  unfold check at h
  cases hm : mget st.meta (s n) with
  | none => simp [entrySize]
  | some w =>
    cases w with
    | none => simp [entrySize]
    | some e => rw [hm] at h; simp at h

theorem mget_mset_eq_or (l : Meta) (k : String) (v : Option govfsFile)
    (k' : String) (w' : Option govfsFile)
    (h : mget (mset l k v) k' = some w') :
    (k' = k ∧ w' = v) ∨ (k' ≠ k ∧ mget l k' = some w') := by
  by_cases hk : k' = k
  · subst hk
    rw [mget_mset_self] at h
    injection h with hh
    exact Or.inl ⟨rfl, hh.symm⟩
  · rw [mget_mset_ne l k k' v hk] at h
    exact Or.inr ⟨hk, h⟩

/-! ### Inversion of the create path -/

theorem dispatchCreate_eq_some (st : FSHeader) (name : String)
    (h0 : name.length ≠ 0) (h2 : 2 ≤ (splitSlash name.data).length) :
    dispatchCreate st name =
      some (ancestorLoop
        { st with meta := mset st.meta (s name) (some (newCreateFile name)) }
        (subComponents name) "", newCreateFile name) := by
  unfold dispatchCreate
  rw [if_neg h0, if_neg (by omega)]

theorem dispatchCreate_inv (st stA : FSHeader) (name : String) (f : govfsFile)
    (h : dispatchCreate st name = some (stA, f)) :
    name.length ≠ 0 ∧ 2 ≤ (splitSlash name.data).length ∧ f = newCreateFile name ∧
      stA = ancestorLoop
        { st with meta := mset st.meta (s name) (some (newCreateFile name)) }
        (subComponents name) "" := by
  unfold dispatchCreate at h
  by_cases h1 : name.length = 0
  · rw [if_pos h1] at h
    exact absurd h (by simp)
  · by_cases h2 : (splitSlash name.data).length < 2
    · rw [if_neg h1, if_pos h2] at h
      exact absurd h (by simp)
    · rw [if_neg h1, if_neg h2] at h
      injection h with hh
      injection hh with ha hb
      exact ⟨h1, by omega, hb.symm, ha.symm⟩

theorem facadeCreate_eq_ok (st : FSHeader) (name : String)
    (h1 : check st name = none) (hlen : name.length ≤ MAX_FILENAME_LENGTH)
    (h0 : name.length ≠ 0) (h2 : 2 ≤ (splitSlash name.data).length) :
    facadeCreate st name =
      some (ancestorLoop
        { st with meta := mset st.meta (s name) (some (newCreateFile name)) }
        (subComponents name) "", OpResult.ok) := by
  unfold facadeCreate
  rw [h1]
  simp only [Option.isSome_none, Bool.false_eq_true, if_false]
  rw [if_neg (by omega), dispatchCreate_eq_some st name h0 h2]

theorem facadeCreate_inv (st st' : FSHeader) (name : String) (r : OpResult)
    (h : facadeCreate st name = some (st', r)) :
    (st' = st ∧ r ≠ OpResult.ok) ∨
      (check st name = none ∧ name.length ≤ MAX_FILENAME_LENGTH ∧ r = OpResult.ok ∧
        dispatchCreate st name = some (st', newCreateFile name)) := by
  unfold facadeCreate at h
  by_cases hc : (check st name).isSome
  · rw [if_pos hc] at h
    injection h with hh
    injection hh with ha hb
    exact Or.inl ⟨ha.symm, by rw [← hb]; simp⟩
  · rw [if_neg hc] at h
    by_cases h2 : MAX_FILENAME_LENGTH < name.length
    · rw [if_pos h2] at h
      injection h with hh
      injection hh with ha hb
      exact Or.inl ⟨ha.symm, by rw [← hb]; simp⟩
    · rw [if_neg h2] at h
      cases hd : dispatchCreate st name with
      | none => rw [hd] at h; exact absurd h (by simp)
      | some p =>
        obtain ⟨stA, f⟩ := p
        rw [hd] at h
        injection h with hh
        injection hh with ha hb
        obtain ⟨_, _, hf, _⟩ := dispatchCreate_inv st stA name f hd
        refine Or.inr ⟨Option.not_isSome_iff_eq_none.1 hc, by omega, hb.symm, ?_⟩
        rw [← ha, ← hf]

/-! ### Root invariant -/

theorem rootInv_createDatabase (n : String) (fl : Nat) :
    RootInv (createDatabase n fl) := by
  refine ⟨{ filename := "/", flags := 0, datasum := "", data := [] }, ?_, rfl, rfl⟩
  simp [createDatabase, mget_mset_self]

theorem rootInv_ancestorLoop (l : List String) (tmp : String) (st : FSHeader)
    (h : RootInv st) : RootInv (ancestorLoop st l tmp) := by
  induction l generalizing st tmp with
  | nil => simpa [ancestorLoop] using h
  | cons c rest ih =>
    simp only [ancestorLoop]
    apply ih
    by_cases hc : (check st (tmp ++ "/" ++ c)).isSome
    · rw [if_pos hc]
      exact h
    · obtain ⟨e, he, hn, hf⟩ := h
      have hk : s (tmp ++ "/" ++ c) ≠ s "/" := by
        intro hk2
        exact hc ((check_isSome_iff _ _).2 ⟨e, hk2 ▸ he⟩)
      refine ⟨e, ?_, hn, hf⟩
      rw [if_neg hc]
      show mget (mset st.meta (s (tmp ++ "/" ++ c)) (some (subdirFile (tmp ++ "/" ++ c)))) (s "/") = _
      rw [mget_mset_ne _ _ _ _ (Ne.symm hk)]
      exact he
/-! ### Characterization of writeOp and deleteOp -/

theorem writeOp_absent (st : FSHeader) (n : String) (d : List Nat)
    (hc : check st n = none) :
    writeOp st n d = (st, OpResult.err "write: Cannot write to nonexistent file") := by
  simp [writeOp, hc]

theorem writeOp_empty (st : FSHeader) (n : String) (d : List Nat) (e : govfsFile)
    (hc : check st n = some e) (hz : d.length = 0) :
    writeOp st n d = (st, OpResult.ok) := by
  simp [writeOp, writeInternal, hc, hz]

theorem writeOp_present (st : FSHeader) (n : String) (d : List Nat) (e : govfsFile)
    (hc : check st n = some e) (hz : d.length ≠ 0) :
    writeOp st n d =
      ({ st with
          t_size :=
            if e.data.length ≤ d.length then (st.t_size + (d.length - e.data.length)) % U64
            else (st.t_size + (U64 - (e.data.length - d.length) % U64)) % U64
          meta := mset st.meta (s n) (some { e with data := d, datasum := sBytes d }) },
        OpResult.ok) := by
  simp [writeOp, writeInternal, hc, hz]

theorem deleteOp_absent (st : FSHeader) (n : String)
    (hc : check st n = none) :
    deleteOp st n = (st, OpResult.err "delete: File does not exist") := by
  simp [deleteOp, hc]

theorem deleteOp_rootname (st : FSHeader) (n : String) (e : govfsFile)
    (hc : check st n = some e) (hroot : e.filename = "/") :
    deleteOp st n = (st, OpResult.err "IRP_DELETE: Tried to delete the root file") := by
  simp [deleteOp, hc, hroot]

theorem deleteOp_present (st : FSHeader) (n : String) (e : govfsFile)
    (hc : check st n = some e) (hroot : e.filename ≠ "/") :
    deleteOp st n = ({ st with meta := mset (mdel st.meta (s n)) (s n) none }, OpResult.ok) := by
  simp [deleteOp, hc, hroot]

theorem rootInv_applyFsOp (st st' : FSHeader) (op : FsOp)
    (h : RootInv st) (hap : applyFsOp st op = some st') : RootInv st' := by
  cases op with
  | create n =>
    simp only [applyFsOp] at hap
    cases hf : facadeCreate st n with
    | none => rw [hf] at hap; exact absurd hap (by simp)
    | some p =>
      obtain ⟨st1, r⟩ := p
      rw [hf] at hap
      simp only [Option.map_some', Option.some.injEq] at hap
      subst hap
      rcases facadeCreate_inv st st1 n r hf with ⟨hsame, _⟩ | ⟨hnone, _, _, hd⟩
      · exact hsame ▸ h
      · obtain ⟨h0, h2, _, hA⟩ := dispatchCreate_inv st st1 n (newCreateFile n) hd
        obtain ⟨e, he, hn, hflag⟩ := h
        have hk : s n ≠ s "/" := by
          intro hk2
          rw [check, hk2, he] at hnone
          exact absurd hnone (by simp)
        rw [hA]
        apply rootInv_ancestorLoop
        refine ⟨e, ?_, hn, hflag⟩
        show mget (mset st.meta (s n) (some (newCreateFile n))) (s "/") = _
        rw [mget_mset_ne _ _ _ _ (Ne.symm hk)]
        exact he
  | write n d =>
    simp only [applyFsOp, Option.some.injEq] at hap
    subst hap
    cases hc : check st n with
    | none => rw [writeOp_absent st n d hc]; exact h
    | some e =>
      by_cases hz : d.length = 0
      · rw [writeOp_empty st n d e hc hz]
        exact h
      · rw [writeOp_present st n d e hc hz]
        obtain ⟨e0, he, hn, hflag⟩ := h
        by_cases hk : s n = s "/"
        · have he0 : e0 = e := by
            have hce := (check_some_iff st n e).1 hc
            rw [hk, he] at hce
            injection hce with hh
            injection hh
          subst he0
          refine ⟨{ e0 with data := d, datasum := sBytes d }, ?_, hn, hflag⟩
          show mget (mset st.meta (s n) (some { e0 with data := d, datasum := sBytes d })) (s "/") = _
          rw [← hk, mget_mset_self]
        · refine ⟨e0, ?_, hn, hflag⟩
          show mget (mset st.meta (s n) (some { e with data := d, datasum := sBytes d })) (s "/") = _
          rw [mget_mset_ne _ _ _ _ (Ne.symm hk)]
          exact he
  | delete n =>
    simp only [applyFsOp, Option.some.injEq] at hap
    subst hap
    cases hc : check st n with
    | none => rw [deleteOp_absent st n hc]; exact h
    | some e =>
      obtain ⟨e0, he, hn, hflag⟩ := h
      by_cases hroot : e.filename = "/"
      · rw [deleteOp_rootname st n e hc hroot]
        exact ⟨e0, he, hn, hflag⟩
      · have hk : s n ≠ s "/" := by
          intro hk2
          have hce := (check_some_iff st n e).1 hc
          rw [hk2, he] at hce
          injection hce with hh
          injection hh with hh2
          exact hroot (hh2 ▸ hn)
        rw [deleteOp_present st n e hc hroot]
        refine ⟨e0, ?_, hn, hflag⟩
        show mget (mset (mdel st.meta (s n)) (s n) none) (s "/") = _
        rw [mget_mset_ne _ _ _ _ (Ne.symm hk), mget_mdel_ne _ _ _ (Ne.symm hk)]
        exact he

theorem runOps_preserve (P : FSHeader → Prop) (Q : FsOp → Prop)
    (hstep : ∀ st op st', P st → Q op → applyFsOp st op = some st' → P st') :
    ∀ (ops : List FsOp) (st st' : FSHeader), P st → (∀ op ∈ ops, Q op) →
      runOps st ops = some st' → P st' := by
  intro ops
  induction ops with
  | nil =>
    intro st st' hP _ hrun
    simp [runOps] at hrun
    exact hrun ▸ hP
  | cons op rest ih =>
    intro st st' hP hQ hrun
    simp only [runOps] at hrun
    cases hap : applyFsOp st op with
    | none => rw [hap] at hrun; exact absurd hrun (by simp)
    | some st1 =>
      rw [hap] at hrun
      exact ih st1 st' (hstep st op st1 hP (hQ op (by simp)) hap)
        (fun o ho => hQ o (by simp [ho])) hrun

theorem rootInv_runOps (fn : String) (fl : Nat) (ops : List FsOp) (st : FSHeader)
    (h : runOps (createDatabase fn fl) ops = some st) : RootInv st :=
  runOps_preserve RootInv (fun _ => True)
    (fun st0 op st1 hP _ hap => rootInv_applyFsOp st0 st1 op hP hap)
    ops (createDatabase fn fl) st (rootInv_createDatabase fn fl)
    (fun _ _ => trivial) h

/-- Delete of the root path is refused with the state unchanged. -/
theorem deleteOp_root (st : FSHeader) (h : RootInv st) :
    deleteOp st "/" = (st, OpResult.err "IRP_DELETE: Tried to delete the root file") := by
  obtain ⟨e, he, hn, _⟩ := h
  exact deleteOp_rootname st "/" e ((check_some_iff st "/" e).2 he) hn

/-! ### Small-step evaluation lemmas for the map -/

theorem mget_nil (key : String) : mget [] key = none := rfl

theorem mget_cons_eq (k : String) (v : Option govfsFile) (t : Meta) :
    mget ((k, v) :: t) k = some v := by
  simp [mget]

theorem mget_cons_ne (k key : String) (v : Option govfsFile) (t : Meta)
    (h : k ≠ key) : mget ((k, v) :: t) key = mget t key := by
  simp [mget, h]

theorem mset_nil (key : String) (v : Option govfsFile) :
    mset [] key v = [(key, v)] := rfl

theorem mset_cons_eq (k : String) (w v : Option govfsFile) (t : Meta) :
    mset ((k, w) :: t) k v = (k, v) :: t := by
  simp [mset]

theorem mset_cons_ne (k key : String) (w v : Option govfsFile) (t : Meta)
    (h : k ≠ key) : mset ((k, w) :: t) key v = (k, w) :: mset t key v := by
  simp [mset, h]

theorem mdel_cons_eq (k : String) (v : Option govfsFile) (t : Meta) :
    mdel ((k, v) :: t) k = t := by
  simp [mdel]

theorem mdel_cons_ne (k key : String) (v : Option govfsFile) (t : Meta)
    (h : k ≠ key) : mdel ((k, v) :: t) key = (k, v) :: mdel t key := by
  simp [mdel, h]

/-! ### Concrete digest values (checked against crypto/md5) -/

theorem sval_root : s "/" = "89b053178cbf06466ed1ea685bb87228" := by decide

theorem sval_a : s "/a" = "a040b58fcb126aab1d64ae9dc2d67566" := by decide

theorem sval_aS : s "/a/" = "0ad5c8bfea7bc08163a92f37fc155ed8" := by decide

theorem sval_b : s "/b" = "7ba1f0d6fc7cfb9ecd43957b595b0c29" := by decide

theorem sval_ab : s "/a/b" = "1e6775f5c346d1c9b947341feb02a3e1" := by decide

theorem sval_abc : s "/a/b/c" = "d2ebb7f310af8c7d3432582d50e2b4d7" := by decide

theorem sval_x : s "/x" = "6cfd3d2717fe05f5cb1388263d09daf7" := by decide

theorem sval_af : s "/a/f" = "9909a31b8011bc7049eb0deacaeee1f4" := by decide

/-! ### Size invariant -/

theorem createDatabase_meta (n : String) (fl : Nat) :
    (createDatabase n fl).meta = [(s "/", some rootFile)] := rfl

theorem check_none_cases (st : FSHeader) (n : String) (h : check st n = none) :
    mget st.meta (s n) = none ∨ mget st.meta (s n) = some none := by
  unfold check at h
  cases hm : mget st.meta (s n) with
  | none => exact Or.inl rfl
  | some w =>
    cases w with
    | none => exact Or.inr rfl
    | some e => rw [hm] at h; exact absurd h (by simp)

theorem sumLens_mset_dead (l : Meta) (k : String) (v : Option govfsFile)
    (hdead : mget l k = none ∨ mget l k = some none) :
    sumLens (mset l k v) = sumLens l + entrySize v := by
  have h2 := sumLens_mset l k v
  rcases hdead with h | h <;>
    rw [h] at h2 <;>
    simp only [Option.getD_none, Option.getD_some] at h2 <;>
    rw [show entrySize none = 0 from rfl] at h2 <;>
    omega

theorem sizeOk_createDatabase (n : String) (fl : Nat) : SizeOk (createDatabase n fl) := by
  constructor
  · simp [createDatabase, mset, sumLens, entrySize, rootFile]
  · intro k w h
    rw [createDatabase_meta] at h
    by_cases hk : s "/" = k
    · rw [← hk, mget_cons_eq] at h
      injection h with hh
      rw [← hh]
      simp [entrySize, rootFile]
    · rw [mget_cons_ne _ _ _ _ hk, mget_nil] at h
      exact absurd h (by simp)

theorem sizeOk_ancestorLoop (l : List String) (tmp : String) (st : FSHeader)
    (h : SizeOk st) : SizeOk (ancestorLoop st l tmp) := by
  induction l generalizing st tmp with
  | nil => exact h
  | cons c rest ih =>
    simp only [ancestorLoop]
    apply ih
    by_cases hc : (check st (tmp ++ "/" ++ c)).isSome
    · rw [if_pos hc]; exact h
    · rw [if_neg hc]
      obtain ⟨h1, h2⟩ := h
      constructor
      · show st.t_size =
          sumLens (mset st.meta (s (tmp ++ "/" ++ c)) (some (subdirFile (tmp ++ "/" ++ c)))) % U64
        rw [sumLens_mset_dead _ _ _
          (check_none_cases st _ (Option.not_isSome_iff_eq_none.1 hc))]
        simpa [subdirFile, entrySize] using h1
      · intro k w hw
        rcases mget_mset_eq_or _ _ _ _ _ hw with ⟨_, hv⟩ | ⟨_, hw2⟩
        · rw [hv]; simp [entrySize, subdirFile]
        · exact h2 k w hw2

theorem sizeOk_facadeCreate (st st' : FSHeader) (n : String) (r : OpResult)
    (h : SizeOk st) (hf : facadeCreate st n = some (st', r)) : SizeOk st' := by
  rcases facadeCreate_inv st st' n r hf with ⟨rfl, _⟩ | ⟨hnone, _, _, hd⟩
  · exact h
  · obtain ⟨_, _, _, hA⟩ := dispatchCreate_inv st st' n _ hd
    rw [hA]
    apply sizeOk_ancestorLoop
    obtain ⟨h1, h2⟩ := h
    constructor
    · show st.t_size = sumLens (mset st.meta (s n) (some (newCreateFile n))) % U64
      rw [sumLens_mset_dead _ _ _ (check_none_cases st n hnone)]
      simpa [newCreateFile, entrySize] using h1
    · intro k w hw
      rcases mget_mset_eq_or _ _ _ _ _ hw with ⟨_, hv⟩ | ⟨_, hw2⟩
      · rw [hv]; simp [entrySize, newCreateFile]
      · exact h2 k w hw2

theorem sizeOk_writeOp (st : FSHeader) (n : String) (d : List Nat)
    (h : SizeOk st) (hd : d.length < 2 ^ 63) : SizeOk (writeOp st n d).1 := by
  cases hc : check st n with
  | none => rw [writeOp_absent st n d hc]; exact h
  | some e =>
    by_cases hz : d.length = 0
    · rw [writeOp_empty st n d e hc hz]; exact h
    · rw [writeOp_present st n d e hc hz]
      obtain ⟨h1, h2⟩ := h
      have hm : mget st.meta (s n) = some (some e) := (check_some_iff st n e).1 hc
      have hele : e.data.length ≤ sumLens st.meta := by
        have := entrySize_le_sumLens st.meta (s n) (some e) hm
        simpa [entrySize] using this
      have hebnd : e.data.length < 2 ^ 63 := by
        have := h2 (s n) (some e) hm
        simpa [entrySize] using this
      have hsum : sumLens (mset st.meta (s n) (some { e with data := d, datasum := sBytes d }))
          + e.data.length = sumLens st.meta + d.length := by
        have h3 := sumLens_mset st.meta (s n) (some { e with data := d, datasum := sBytes d })
        rw [hm] at h3
        simpa [entrySize] using h3
      have hU : U64 = 18446744073709551616 := rfl
      constructor
      · show (if e.data.length ≤ d.length then (st.t_size + (d.length - e.data.length)) % U64
              else (st.t_size + (U64 - (e.data.length - d.length) % U64)) % U64)
            = sumLens (mset st.meta (s n) (some { e with data := d, datasum := sBytes d })) % U64
        rw [h1]
        by_cases hle : e.data.length ≤ d.length
        · rw [if_pos hle, Nat.mod_add_mod]
          congr 1
          omega
        · rw [if_neg hle, Nat.mod_add_mod]
          have hxlt : (e.data.length - d.length) % U64 = e.data.length - d.length :=
            Nat.mod_eq_of_lt (by omega)
          rw [hxlt]
          have heq : sumLens st.meta + (U64 - (e.data.length - d.length)) =
              sumLens (mset st.meta (s n) (some { e with data := d, datasum := sBytes d })) + U64 := by
            omega
          rw [heq, Nat.add_mod_right]
      · intro k w hw
        rcases mget_mset_eq_or _ _ _ _ _ hw with ⟨_, hv⟩ | ⟨_, hw2⟩
        · rw [hv]; simpa [entrySize] using hd
        · exact h2 k w hw2

theorem sizeOk_applyFsOp (st st' : FSHeader) (op : FsOp)
    (h : SizeOk st) (hq : opSizeOk op ∧ opNotDelete op)
    (hap : applyFsOp st op = some st') : SizeOk st' := by
  cases op with
  | create n =>
    simp only [applyFsOp] at hap
    cases hf : facadeCreate st n with
    | none => rw [hf] at hap; exact absurd hap (by simp)
    | some p =>
      obtain ⟨st1, r⟩ := p
      rw [hf] at hap
      simp only [Option.map_some', Option.some.injEq] at hap
      subst hap
      exact sizeOk_facadeCreate st st1 n r h hf
  | write n d =>
    simp only [applyFsOp, Option.some.injEq] at hap
    subst hap
    exact sizeOk_writeOp st n d h hq.1
  | delete n => exact absurd hq.2 (by simp [opNotDelete])

/-! ### Claim C2: the aggregate size counter -/

/-- C2 (amended): over states reached from a fresh database by Create and
Write operations whose payloads respect the Go slice bound,
GetTotalFilesizes equals the 64-bit-wrapped sum of the payload lengths of
ALL slots — directory entries included, since the write path never checks
the entry kind.  Delete is excluded: it clears a slot without adjusting the
counter. -/
theorem c2_total_size (fn : String) (fl : Nat) (ops : List FsOp) (st : FSHeader)
    (hsz : ∀ op ∈ ops, opSizeOk op) (hnd : ∀ op ∈ ops, opNotDelete op)
    (hrun : runOps (createDatabase fn fl) ops = some st) :
    GetTotalFilesizes st = sumLens st.meta % U64 :=
  (runOps_preserve SizeOk (fun op => opSizeOk op ∧ opNotDelete op)
    (fun st0 op st1 hP hQ hap => sizeOk_applyFsOp st0 st1 op hP hQ hap)
    ops (createDatabase fn fl) st (sizeOk_createDatabase fn fl)
    (fun op ho => ⟨hsz op ho, hnd op ho⟩) hrun).1

/-! ### Claim C4: the root entry -/

/-- C4 counterexample: in the freshly constructed database — a reachable
serving state — the root slot holds the entry with path `/` but its kind is
not directory: the flag word is zero, refuting "whose kind is directory". -/
theorem c4_counterexample :
    mget (createDatabase "db" FLAG_DB_CREATE).meta (s "/") = some (some rootFile) ∧
    ¬ (∃ e, mget (createDatabase "db" FLAG_DB_CREATE).meta (s "/") = some (some e) ∧
        e.flags &&& FLAG_DIRECTORY > 0) := by
  constructor
  · rw [createDatabase_meta, mget_cons_eq]
  · rintro ⟨e, he, hdir⟩
    rw [createDatabase_meta, mget_cons_eq] at he
    injection he with hh
    injection hh with hh2
    rw [← hh2] at hdir
    exact absurd hdir (by decide)

/-- C4 (amended): every state reachable from a fresh database keeps a live
root entry at key `s "/"` with path `/` and flag word zero (so the root is
never marked a file — nor a directory), and Delete of `/` is refused with
the state unchanged. -/
theorem c4_root_invariant (fn : String) (fl : Nat) (ops : List FsOp) (st : FSHeader)
    (h : runOps (createDatabase fn fl) ops = some st) :
    (∃ e, mget st.meta (s "/") = some (some e) ∧ e.filename = "/" ∧ e.flags = 0) ∧
    deleteOp st "/" = (st, OpResult.err "IRP_DELETE: Tried to delete the root file") := by
  have hR := rootInv_runOps fn fl ops st h
  exact ⟨hR, deleteOp_root st hR⟩

/-- Witness for C4 at the empty operation sequence. -/
theorem c4_root_invariant_witness :
    (∃ e, mget (createDatabase "db" FLAG_DB_CREATE).meta (s "/") = some (some e) ∧
      e.filename = "/" ∧ e.flags = 0) ∧
    deleteOp (createDatabase "db" FLAG_DB_CREATE) "/" =
      (createDatabase "db" FLAG_DB_CREATE,
        OpResult.err "IRP_DELETE: Tried to delete the root file") :=
  c4_root_invariant "db" FLAG_DB_CREATE [] (createDatabase "db" FLAG_DB_CREATE) rfl

/-! ### Claim C8: write to a nonexistent path -/

/-- C8: when no entry resolves at the path's digest, the facade Write is
rejected with an error and both the namespace and the aggregate size are
untouched. -/
theorem c8_write_nonexistent (st : FSHeader) (name : String) (d : List Nat)
    (hc : check st name = none) :
    writeOp st name d = (st, OpResult.err "write: Cannot write to nonexistent file") ∧
    (writeOp st name d).1.meta = st.meta ∧
    GetTotalFilesizes (writeOp st name d).1 = GetTotalFilesizes st := by
  have h := writeOp_absent st name d hc
  exact ⟨h, by rw [h], by rw [h]⟩

/-- Witness for C8: writing `[1, 2]` to the never-created `/x`. -/
theorem c8_write_nonexistent_witness :
    writeOp (createDatabase "db" FLAG_DB_CREATE) "/x" [1, 2] =
      (createDatabase "db" FLAG_DB_CREATE,
        OpResult.err "write: Cannot write to nonexistent file") ∧
    (writeOp (createDatabase "db" FLAG_DB_CREATE) "/x" [1, 2]).1.meta =
      (createDatabase "db" FLAG_DB_CREATE).meta ∧
    GetTotalFilesizes (writeOp (createDatabase "db" FLAG_DB_CREATE) "/x" [1, 2]).1 =
      GetTotalFilesizes (createDatabase "db" FLAG_DB_CREATE) :=
  c8_write_nonexistent (createDatabase "db" FLAG_DB_CREATE) "/x" [1, 2] (by
    unfold check
    rw [createDatabase_meta, mget_cons_ne _ _ _ _ (by rw [sval_root, sval_x]; decide),
      mget_nil])

/-! ### Claims C1 and C5: the snapshot stream transforms -/

/-- C1 (code-bug evidence): whenever whole-image compression is among the
load flags, readFsStream hands the decompressor the empty buffer `b` (the
source fills it with `b.Read(plaintext)`, which writes nothing into `b`),
so loading fails for every on-disk image — in particular for any image
produced by UnmountDB, refuting the round trip for every flag combination
containing COMPRESS. -/
theorem c1_readFsStream_compress_fails
    (gunzip : List Nat → Option (List Nat)) (dec : List Nat → List Nat)
    (flags : Nat) (raw : List Nat)
    (hgz : gunzip [] = none) (hcomp : flags &&& FLAG_COMPRESS > 0) :
    readFsStream gunzip dec flags raw = none := by
  simp only [readFsStream]
  rw [if_pos hcomp, hgz]

/-- Witness for C1 at the COMPRESS|ENCRYPT flag pair. -/
theorem c1_readFsStream_compress_fails_witness :
    readFsStream (fun _ => none) (fun x => x)
      (FLAG_COMPRESS ||| FLAG_ENCRYPT) [1, 2, 3] = none :=
  c1_readFsStream_compress_fails (fun _ => none) (fun x => x)
    (FLAG_COMPRESS ||| FLAG_ENCRYPT) [1, 2, 3] rfl (by decide)

/-- C5 (code-bug evidence): with COMPRESS and ENCRYPT both requested, the
bytes writeFsStream emits are the stream cipher applied to the raw,
uncompressed record stream — for every compressor `gz`, whose output is
computed into `compressed` and then discarded — instead of the claimed
cipher-of-gzip composition. -/
theorem c5_writeFsStream_encrypts_uncompressed
    (gz enc : List Nat → List Nat) (data : List Nat) :
    writeFsStream gz enc (FLAG_COMPRESS ||| FLAG_ENCRYPT) data = enc data := by
  simp only [writeFsStream]
  rw [if_pos (show (FLAG_COMPRESS ||| FLAG_ENCRYPT) &&& FLAG_ENCRYPT > 0 by decide)]

/-! ### Claim C10: totality of the create handler -/

theorem splitSlash_ne_nil (cs : List Char) : splitSlash cs ≠ [] := by
  cases cs with
  | nil => simp [splitSlash]
  | cons c t =>
    simp only [splitSlash]
    cases splitSlash t with
    | nil => simp
    | cons h r => by_cases hc : c = '/' <;> simp [hc]

theorem splitSlash_length (cs : List Char) :
    (splitSlash cs).length = cs.count '/' + 1 := by
  induction cs with
  | nil => simp [splitSlash]
  | cons c t ih =>
    simp only [splitSlash]
    cases hsp : splitSlash t with
    | nil => exact absurd hsp (splitSlash_ne_nil t)
    | cons h r =>
      rw [hsp] at ih
      by_cases hc : c = '/'
      · subst hc
        simp only [if_pos rfl, List.length_cons, List.count_cons]
        simp at ih ⊢
        omega
      · simp only [if_neg hc, List.length_cons, List.count_cons] at ih ⊢
        simp [hc] at ih ⊢
        omega

/-- C10: the IRP_CREATE handler runs to completion exactly when the path is
non-empty and contains at least one slash (otherwise the last-byte index or
the `make` with negative length panics, modelled by `none`), and on success
the new entry's kind is read off the last byte of the path. -/
theorem c10_create_totality (st : FSHeader) (name : String) :
    ((dispatchCreate st name).isSome ↔ (name.length ≠ 0 ∧ '/' ∈ name.data)) ∧
    (∀ st' f, dispatchCreate st name = some (st', f) →
      f.flags = if lastIsSlash name then FLAG_DIRECTORY else FLAG_FILE) := by
  constructor
  · constructor
    · intro h
      unfold dispatchCreate at h
      by_cases h1 : name.length = 0
      · rw [if_pos h1] at h
        exact absurd h (by simp)
      · by_cases h2 : (splitSlash name.data).length < 2
        · rw [if_neg h1] at h
          simp only [h2, if_true, if_pos h2] at h
          exact absurd h (by simp)
        · refine ⟨h1, ?_⟩
          rw [splitSlash_length] at h2
          have hcnt : name.data.count '/' ≠ 0 := by omega
          by_contra hmem
          exact hcnt (List.count_eq_zero.2 hmem)
    · rintro ⟨h1, h2⟩
      unfold dispatchCreate
      rw [if_neg h1]
      have hcnt : name.data.count '/' ≠ 0 := fun hz => (List.count_eq_zero.1 hz) h2
      have hlen : ¬ (splitSlash name.data).length < 2 := by
        rw [splitSlash_length]
        omega
      rw [if_neg hlen]
      simp
  · intro st' f h
    have hf := (dispatchCreate_inv st st' name f h).2.2.1
    rw [hf]
    rfl

/-- Witness for C10: a slash-free path panics the handler, a slashed path
does not, and the classification follows the last byte. -/
theorem c10_create_totality_witness :
    ¬ (dispatchCreate (createDatabase "db" FLAG_DB_CREATE) "abc").isSome = true ∧
    ("/a".length ≠ 0 ∧ '/' ∈ "/a".data) := by
  constructor
  · intro hs
    have h := ((c10_create_totality (createDatabase "db" FLAG_DB_CREATE) "abc").1).1 hs
    revert h
    decide
  · exact ((c10_create_totality (createDatabase "db" FLAG_DB_CREATE) "/a").1).1
      (by decide)

/-! ### Concrete evaluation helpers for single-component paths -/

theorem ancestorLoop_nil (st : FSHeader) (tmp : String) :
    ancestorLoop st [] tmp = st := rfl

theorem ancestorLoop_one (st : FSHeader) (c tmp q : String)
    (hq : tmp ++ "/" ++ c = q) :
    ancestorLoop st [c] tmp =
      if (check st q).isSome then st
      else { st with meta := mset st.meta (s q) (some (subdirFile q)) } := by
  simp only [ancestorLoop, hq]

/-- Facade create of a path whose ancestor walk is empty. -/
theorem facadeCreate_flat (st : FSHeader) (name : String)
    (h1 : check st name = none) (hlen : name.length ≤ MAX_FILENAME_LENGTH)
    (h0 : name.length ≠ 0) (h2 : 2 ≤ (splitSlash name.data).length)
    (hsub : subComponents name = []) :
    facadeCreate st name =
      some ({ st with meta := mset st.meta (s name) (some (newCreateFile name)) },
        OpResult.ok) := by
  rw [facadeCreate_eq_ok st name h1 hlen h0 h2, hsub]
  rfl

/-! ### Claim C2, counterexample and witness -/

theorem c2_create_step :
    facadeCreate (createDatabase "db" FLAG_DB_CREATE) "/a/" = some (c2st1, OpResult.ok) := by
  have hneA : s "/" ≠ s "/a/" := by rw [sval_root, sval_aS]; decide
  have hnea : s "/" ≠ s "/a" := by rw [sval_root, sval_a]; decide
  have hneSa : s "/a/" ≠ s "/a" := by rw [sval_aS, sval_a]; decide
  have hchk0 : check (createDatabase "db" FLAG_DB_CREATE) "/a/" = none := by
    unfold check
    rw [createDatabase_meta, mget_cons_ne _ _ _ _ hneA, mget_nil]
  rw [facadeCreate_eq_ok (createDatabase "db" FLAG_DB_CREATE) "/a/" hchk0 (by decide)
    (by decide) (by decide)]
  rw [show subComponents "/a/" = ["a"] from by decide]
  rw [createDatabase_meta]
  rw [mset_cons_ne _ _ _ _ _ hneA, mset_nil]
  rw [ancestorLoop_one _ "a" "" "/a" (by decide)]
  have hchkA : check { createDatabase "db" FLAG_DB_CREATE with
      meta := [(s "/", some rootFile), (s "/a/", some (newCreateFile "/a/"))] } "/a" = none := by
    unfold check
    show (match mget [(s "/", some rootFile), (s "/a/", some (newCreateFile "/a/"))] (s "/a") with
      | some (some e) => some e
      | _ => none) = none
    rw [mget_cons_ne _ _ _ _ hnea, mget_cons_ne _ _ _ _ hneSa, mget_nil]
  rw [hchkA]
  simp only [Option.isSome_none, Bool.false_eq_true, if_false]
  rw [show mset [(s "/", some rootFile), (s "/a/", some (newCreateFile "/a/"))] (s "/a")
      (some (subdirFile "/a")) =
      [(s "/", some rootFile), (s "/a/", some (newCreateFile "/a/")), (s "/a", some (subdirFile "/a"))]
    from by rw [mset_cons_ne _ _ _ _ _ hnea, mset_cons_ne _ _ _ _ _ hneSa, mset_nil]]
  rfl

theorem c2_write_step : writeOp c2st1 "/a/" [1, 2] = (c2st2, OpResult.ok) := by
  have hneA : s "/" ≠ s "/a/" := by rw [sval_root, sval_aS]; decide
  have hchk : check c2st1 "/a/" = some c2nf := by
    unfold check
    show (match mget c2st1.meta (s "/a/") with
      | some (some e) => some e
      | _ => none) = some c2nf
    rw [show c2st1.meta =
        [(s "/", some rootFile), (s "/a/", some c2nf), (s "/a", some (subdirFile "/a"))] from rfl]
    rw [mget_cons_ne _ _ _ _ hneA, mget_cons_eq]
  rw [writeOp_present c2st1 "/a/" [1, 2] c2nf hchk (by decide)]
  rw [show c2st1.meta =
      [(s "/", some rootFile), (s "/a/", some c2nf), (s "/a", some (subdirFile "/a"))] from rfl]
  rw [mset_cons_ne _ _ _ _ _ hneA, mset_cons_eq]
  rfl

theorem c2_delete_step : deleteOp c2st2 "/a/" = (c2st3, OpResult.ok) := by
  have hneA : s "/" ≠ s "/a/" := by rw [sval_root, sval_aS]; decide
  have hneSa : s "/a/" ≠ s "/a" := by rw [sval_aS, sval_a]; decide
  have hchk : check c2st2 "/a/" = some c2nfW := by
    unfold check
    show (match mget c2st2.meta (s "/a/") with
      | some (some e) => some e
      | _ => none) = some c2nfW
    rw [show c2st2.meta =
        [(s "/", some rootFile), (s "/a/", some c2nfW), (s "/a", some (subdirFile "/a"))] from rfl]
    rw [mget_cons_ne _ _ _ _ hneA, mget_cons_eq]
  rw [deleteOp_present c2st2 "/a/" c2nfW hchk (by decide)]
  rw [show c2st2.meta =
      [(s "/", some rootFile), (s "/a/", some c2nfW), (s "/a", some (subdirFile "/a"))] from rfl]
  rw [mdel_cons_ne _ _ _ _ hneA, mdel_cons_eq]
  rw [mset_cons_ne _ _ _ _ _ hneA, mset_cons_ne _ _ _ _ _ (Ne.symm hneSa), mset_nil]
  rfl

/-- C2 counterexample: the reachable trace Create `/a/`, Write `[1,2]` to
`/a/`, Delete `/a/` refutes the claim twice over.  After the write the
counter is 2 while no file-kind entry carries any payload (the write landed
on a directory entry), and after the delete the counter still reads 2 while
the summed payload of every remaining slot is 0 (the delete never adjusted
it). -/
theorem c2_counterexample :
    runOps (createDatabase "db" FLAG_DB_CREATE)
      [FsOp.create "/a/", FsOp.write "/a/" [1, 2]] = some c2st2 ∧
    runOps (createDatabase "db" FLAG_DB_CREATE)
      [FsOp.create "/a/", FsOp.write "/a/" [1, 2], FsOp.delete "/a/"] = some c2st3 ∧
    GetTotalFilesizes c2st2 = 2 ∧ specFileKindSum c2st2.meta = 0 ∧
    GetTotalFilesizes c2st3 = 2 ∧ sumLens c2st3.meta = 0 := by
  have h2 : runOps (createDatabase "db" FLAG_DB_CREATE)
      [FsOp.create "/a/", FsOp.write "/a/" [1, 2]] = some c2st2 := by
    simp only [runOps, applyFsOp, c2_create_step, c2_write_step, Option.map_some']
  have h3 : runOps (createDatabase "db" FLAG_DB_CREATE)
      [FsOp.create "/a/", FsOp.write "/a/" [1, 2], FsOp.delete "/a/"] = some c2st3 := by
    simp only [runOps, applyFsOp, c2_create_step, c2_write_step, c2_delete_step,
      Option.map_some']
  refine ⟨h2, h3, rfl, ?_, rfl, ?_⟩
  · decide
  · decide

/-- Witness for C2 on the trace Create `/a`, Write `[1,2]` to `/a`. -/
theorem c2_total_size_witness :
    runOps (createDatabase "db" FLAG_DB_CREATE)
      [FsOp.create "/a", FsOp.write "/a" [1, 2]] = some c2wFinal ∧
    GetTotalFilesizes c2wFinal = sumLens c2wFinal.meta % U64 := by
  have hrun : runOps (createDatabase "db" FLAG_DB_CREATE)
      [FsOp.create "/a", FsOp.write "/a" [1, 2]] = some c2wFinal := by
    have hnea : s "/" ≠ s "/a" := by rw [sval_root, sval_a]; decide
    have hc1 : facadeCreate (createDatabase "db" FLAG_DB_CREATE) "/a" =
        some (c2wMid, OpResult.ok) := by
      have hchk0 : check (createDatabase "db" FLAG_DB_CREATE) "/a" = none := by
        unfold check
        rw [createDatabase_meta, mget_cons_ne _ _ _ _ hnea, mget_nil]
      rw [facadeCreate_flat (createDatabase "db" FLAG_DB_CREATE) "/a" hchk0 (by decide)
        (by decide) (by decide) (by decide)]
      rw [createDatabase_meta, mset_cons_ne _ _ _ _ _ hnea, mset_nil]
      rfl
    have hc2 : writeOp c2wMid "/a" [1, 2] = (c2wFinal, OpResult.ok) := by
      have hchk : check c2wMid "/a" = some (newCreateFile "/a") := by
        unfold check
        show (match mget c2wMid.meta (s "/a") with
          | some (some e) => some e
          | _ => none) = some (newCreateFile "/a")
        rw [show c2wMid.meta = [(s "/", some rootFile), (s "/a", some (newCreateFile "/a"))]
          from rfl]
        rw [mget_cons_ne _ _ _ _ hnea, mget_cons_eq]
      rw [writeOp_present c2wMid "/a" [1, 2] (newCreateFile "/a") hchk (by decide)]
      rw [show c2wMid.meta = [(s "/", some rootFile), (s "/a", some (newCreateFile "/a"))]
        from rfl]
      rw [mset_cons_ne _ _ _ _ _ hnea, mset_cons_eq]
      rfl
    simp only [runOps, applyFsOp, hc1, hc2, Option.map_some']
  exact ⟨hrun,
    c2_total_size "db" FLAG_DB_CREATE [FsOp.create "/a", FsOp.write "/a" [1, 2]] c2wFinal
      (by decide) (by decide) hrun⟩

/-! ### Claim C3: ancestor synthesis keying -/

theorem ancestorLoop_cons (st : FSHeader) (c : String) (rest : List String)
    (tmp q : String) (hq : tmp ++ "/" ++ c = q) :
    ancestorLoop st (c :: rest) tmp =
      ancestorLoop
        (if (check st q).isSome then st
         else { st with meta := mset st.meta (s q) (some (subdirFile q)) }) rest q := by
  simp only [ancestorLoop, hq]

theorem ancestorLoop_frame (l : List String) (tmp : String) (st : FSHeader) (k : String)
    (hk : k ∉ (tmpList l tmp).map s) :
    mget (ancestorLoop st l tmp).meta k = mget st.meta k := by
  induction l generalizing st tmp with
  | nil => rfl
  | cons c rest ih =>
    simp only [ancestorLoop]
    simp only [tmpList, List.map_cons, List.mem_cons] at hk
    push_neg at hk
    rw [ih _ _ hk.2]
    by_cases hc : (check st (tmp ++ "/" ++ c)).isSome
    · rw [if_pos hc]
    · rw [if_neg hc]
      show mget (mset st.meta (s (tmp ++ "/" ++ c)) (some (subdirFile (tmp ++ "/" ++ c)))) k
        = mget st.meta k
      exact mget_mset_ne _ _ _ _ hk.1

theorem ancestorLoop_inserts (l : List String) (tmp : String) (st : FSHeader)
    (hfresh : ∀ q ∈ tmpList l tmp, check st q = none)
    (hnodup : ((tmpList l tmp).map s).Nodup) :
    ∀ q ∈ tmpList l tmp,
      mget (ancestorLoop st l tmp).meta (s q) = some (some (subdirFile q)) := by
  induction l generalizing st tmp with
  | nil => intro q hq; simp [tmpList] at hq
  | cons c rest ih =>
    intro q hq
    simp only [tmpList, List.mem_cons] at hq
    simp only [tmpList, List.map_cons, List.nodup_cons] at hnodup
    have hfresh1 := hfresh (tmp ++ "/" ++ c) (by simp [tmpList])
    have hcfalse : ¬ (check st (tmp ++ "/" ++ c)).isSome := by
      rw [hfresh1]; simp
    rw [ancestorLoop_cons st c rest tmp (tmp ++ "/" ++ c) rfl, if_neg hcfalse]
    rcases hq with rfl | hq2
    · rw [ancestorLoop_frame rest _ _ _ hnodup.1]
      show mget (mset st.meta (s (tmp ++ "/" ++ c)) (some (subdirFile (tmp ++ "/" ++ c)))) (s (tmp ++ "/" ++ c)) = _
      exact mget_mset_self _ _ _
    · refine ih _ _ ?_ hnodup.2 q hq2
      intro q' hq'
      have hne : s q' ≠ s (tmp ++ "/" ++ c) := by
        intro he
        exact hnodup.1 (he ▸ List.mem_map_of_mem s hq')
      have hmm : mget (mset st.meta (s (tmp ++ "/" ++ c))
          (some (subdirFile (tmp ++ "/" ++ c)))) (s q') = mget st.meta (s q') :=
        mget_mset_ne _ _ _ _ hne
      have hf := hfresh q' (by simp [tmpList, hq'])
      unfold check at hf ⊢
      rw [show ({ st with meta := mset st.meta (s (tmp ++ "/" ++ c)) (some (subdirFile (tmp ++ "/" ++ c))) } : FSHeader).meta = mset st.meta (s (tmp ++ "/" ++ c)) (some (subdirFile (tmp ++ "/" ++ c))) from rfl]
      rw [hmm]
      exact hf

/-- C3 (amended): a successful Create of `name` synthesizes, for every
slash-separated proper prefix `q` of the path, a directory entry with path
`q ++ "/"` stored at key `s q` — the prefix hashed WITHOUT a trailing slash
— provided each prefix slot was unoccupied and the inserted digests are
pairwise distinct. -/
theorem c3_ancestor_synthesis (st st' : FSHeader) (name : String)
    (hok : facadeCreate st name = some (st', OpResult.ok))
    (hfresh : ∀ q ∈ subAncestors name, check st q = none)
    (hnodup : ((subAncestors name).map s).Nodup)
    (hmain : s name ∉ (subAncestors name).map s) :
    ∀ q ∈ subAncestors name,
      mget st'.meta (s q) = some (some (subdirFile q)) ∧
      (subdirFile q).filename = q ++ "/" ∧ (subdirFile q).flags = FLAG_DIRECTORY := by
  rcases facadeCreate_inv st st' name _ hok with ⟨_, hne⟩ | ⟨hnone, _, _, hd⟩
  · exact absurd rfl hne
  · obtain ⟨h0, h2, _, hA⟩ := dispatchCreate_inv st st' name _ hd
    intro q hq
    refine ⟨?_, rfl, rfl⟩
    rw [hA]
    refine ancestorLoop_inserts (subComponents name) "" _ ?_ hnodup q hq
    intro q' hq'
    have hne : s q' ≠ s name := fun he => hmain (he ▸ List.mem_map_of_mem s hq')
    have hf := hfresh q' hq'
    unfold check at hf ⊢
    rw [show ({ st with meta := mset st.meta (s name) (some (newCreateFile name)) } : FSHeader).meta = mset st.meta (s name) (some (newCreateFile name)) from rfl]
    rw [mget_mset_ne _ _ _ _ hne]
    exact hf

theorem c3_create_step :
    facadeCreate (createDatabase "db" FLAG_DB_CREATE) "/a/b" = some (c3st, OpResult.ok) := by
  have hne1 : s "/" ≠ s "/a/b" := by rw [sval_root, sval_ab]; decide
  have hne2 : s "/" ≠ s "/a" := by rw [sval_root, sval_a]; decide
  have hne3 : s "/a/b" ≠ s "/a" := by rw [sval_ab, sval_a]; decide
  have hchk0 : check (createDatabase "db" FLAG_DB_CREATE) "/a/b" = none := by
    unfold check
    rw [createDatabase_meta, mget_cons_ne _ _ _ _ hne1, mget_nil]
  rw [facadeCreate_eq_ok (createDatabase "db" FLAG_DB_CREATE) "/a/b" hchk0 (by decide)
    (by decide) (by decide)]
  rw [show subComponents "/a/b" = ["a"] from by decide]
  rw [createDatabase_meta]
  rw [mset_cons_ne _ _ _ _ _ hne1, mset_nil]
  rw [ancestorLoop_one _ "a" "" "/a" (by decide)]
  have hchkA : check { createDatabase "db" FLAG_DB_CREATE with meta := [(s "/", some rootFile), (s "/a/b", some (newCreateFile "/a/b"))] } "/a" = none := by
    unfold check
    show (match mget [(s "/", some rootFile), (s "/a/b", some (newCreateFile "/a/b"))] (s "/a") with | some (some e) => some e | _ => none) = none
    rw [mget_cons_ne _ _ _ _ hne2, mget_cons_ne _ _ _ _ hne3, mget_nil]
  rw [hchkA]
  simp only [Option.isSome_none, Bool.false_eq_true, if_false]
  rw [show mset [(s "/", some rootFile), (s "/a/b", some (newCreateFile "/a/b"))] (s "/a") (some (subdirFile "/a")) = [(s "/", some rootFile), (s "/a/b", some (newCreateFile "/a/b")), (s "/a", some (subdirFile "/a"))] from by rw [mset_cons_ne _ _ _ _ _ hne2, mset_cons_ne _ _ _ _ _ hne3, mset_nil]]
  rfl

/-- C3 counterexample: after creating `/a/b` on a fresh database there is
no entry at key `digest_path("/a" ++ "/")` — although that slot was
unoccupied before the create, so the claim's "unless occupied" escape does
not apply — while the synthesized directory entry with path `/a/` sits at
key `digest_path("/a")`. -/
theorem c3_counterexample :
    facadeCreate (createDatabase "db" FLAG_DB_CREATE) "/a/b" = some (c3st, OpResult.ok) ∧
    check (createDatabase "db" FLAG_DB_CREATE) ("/a" ++ "/") = none ∧
    mget c3st.meta (s ("/a" ++ "/")) = none ∧
    mget c3st.meta (s "/a") = some (some (subdirFile "/a")) := by
  have happ : ("/a" ++ "/" : String) = "/a/" := rfl
  have h1 : s "/" ≠ s "/a/" := by rw [sval_root, sval_aS]; decide
  have h2 : s "/a/b" ≠ s "/a/" := by rw [sval_ab, sval_aS]; decide
  have h3 : s "/a" ≠ s "/a/" := by rw [sval_a, sval_aS]; decide
  have h4 : s "/" ≠ s "/a" := by rw [sval_root, sval_a]; decide
  have h5 : s "/a/b" ≠ s "/a" := by rw [sval_ab, sval_a]; decide
  refine ⟨c3_create_step, ?_, ?_, ?_⟩
  · rw [happ]
    unfold check
    rw [createDatabase_meta, mget_cons_ne _ _ _ _ h1, mget_nil]
  · rw [happ]
    rw [show c3st.meta = [(s "/", some rootFile), (s "/a/b", some (newCreateFile "/a/b")), (s "/a", some (subdirFile "/a"))] from rfl]
    rw [mget_cons_ne _ _ _ _ h1, mget_cons_ne _ _ _ _ h2, mget_cons_ne _ _ _ _ h3, mget_nil]
  · rw [show c3st.meta = [(s "/", some rootFile), (s "/a/b", some (newCreateFile "/a/b")), (s "/a", some (subdirFile "/a"))] from rfl]
    rw [mget_cons_ne _ _ _ _ h4, mget_cons_ne _ _ _ _ h5, mget_cons_eq]

theorem c3_witness_step :
    facadeCreate (createDatabase "db" FLAG_DB_CREATE) "/a/b/c" = some (c3wst, OpResult.ok) := by
  have hne1 : s "/" ≠ s "/a/b/c" := by rw [sval_root, sval_abc]; decide
  have hne2 : s "/" ≠ s "/a" := by rw [sval_root, sval_a]; decide
  have hne3 : s "/a/b/c" ≠ s "/a" := by rw [sval_abc, sval_a]; decide
  have hne4 : s "/" ≠ s "/a/b" := by rw [sval_root, sval_ab]; decide
  have hne5 : s "/a/b/c" ≠ s "/a/b" := by rw [sval_abc, sval_ab]; decide
  have hne6 : s "/a" ≠ s "/a/b" := by rw [sval_a, sval_ab]; decide
  have hchk0 : check (createDatabase "db" FLAG_DB_CREATE) "/a/b/c" = none := by
    unfold check
    rw [createDatabase_meta, mget_cons_ne _ _ _ _ hne1, mget_nil]
  rw [facadeCreate_eq_ok (createDatabase "db" FLAG_DB_CREATE) "/a/b/c" hchk0 (by decide)
    (by decide) (by decide)]
  rw [show subComponents "/a/b/c" = ["a", "b"] from by decide]
  rw [createDatabase_meta, mset_cons_ne _ _ _ _ _ hne1, mset_nil]
  rw [ancestorLoop_cons _ "a" ["b"] "" "/a" (by decide)]
  have hchkA : check { createDatabase "db" FLAG_DB_CREATE with meta := [(s "/", some rootFile), (s "/a/b/c", some (newCreateFile "/a/b/c"))] } "/a" = none := by
    unfold check
    show (match mget [(s "/", some rootFile), (s "/a/b/c", some (newCreateFile "/a/b/c"))] (s "/a") with | some (some e) => some e | _ => none) = none
    rw [mget_cons_ne _ _ _ _ hne2, mget_cons_ne _ _ _ _ hne3, mget_nil]
  rw [hchkA]
  simp only [Option.isSome_none, Bool.false_eq_true, if_false]
  rw [show mset [(s "/", some rootFile), (s "/a/b/c", some (newCreateFile "/a/b/c"))] (s "/a") (some (subdirFile "/a")) = [(s "/", some rootFile), (s "/a/b/c", some (newCreateFile "/a/b/c")), (s "/a", some (subdirFile "/a"))] from by rw [mset_cons_ne _ _ _ _ _ hne2, mset_cons_ne _ _ _ _ _ hne3, mset_nil]]
  rw [ancestorLoop_cons _ "b" ([] : List String) "/a" "/a/b" (by decide)]
  have hchkB : check { createDatabase "db" FLAG_DB_CREATE with meta := [(s "/", some rootFile), (s "/a/b/c", some (newCreateFile "/a/b/c")), (s "/a", some (subdirFile "/a"))] } "/a/b" = none := by
    unfold check
    show (match mget [(s "/", some rootFile), (s "/a/b/c", some (newCreateFile "/a/b/c")), (s "/a", some (subdirFile "/a"))] (s "/a/b") with | some (some e) => some e | _ => none) = none
    rw [mget_cons_ne _ _ _ _ hne4, mget_cons_ne _ _ _ _ hne5, mget_cons_ne _ _ _ _ hne6, mget_nil]
  rw [hchkB]
  simp only [Option.isSome_none, Bool.false_eq_true, if_false]
  rw [show mset [(s "/", some rootFile), (s "/a/b/c", some (newCreateFile "/a/b/c")), (s "/a", some (subdirFile "/a"))] (s "/a/b") (some (subdirFile "/a/b")) = [(s "/", some rootFile), (s "/a/b/c", some (newCreateFile "/a/b/c")), (s "/a", some (subdirFile "/a")), (s "/a/b", some (subdirFile "/a/b"))] from by rw [mset_cons_ne _ _ _ _ _ hne4, mset_cons_ne _ _ _ _ _ hne5, mset_cons_ne _ _ _ _ _ hne6, mset_nil]]
  rw [ancestorLoop_nil]
  rfl

/-- Witness for C3 at the path `/a/b/c` on a fresh database: the two
proper prefixes `/a` and `/a/b` both receive directory entries at their
slashless digest keys. -/
theorem c3_ancestor_synthesis_witness :
    facadeCreate (createDatabase "db" FLAG_DB_CREATE) "/a/b/c" = some (c3wst, OpResult.ok) ∧
    ∀ q ∈ subAncestors "/a/b/c",
      mget c3wst.meta (s q) = some (some (subdirFile q)) ∧
      (subdirFile q).filename = q ++ "/" ∧ (subdirFile q).flags = FLAG_DIRECTORY := by
  have hsub : subAncestors "/a/b/c" = ["/a", "/a/b"] := by decide
  refine ⟨c3_witness_step,
    c3_ancestor_synthesis (createDatabase "db" FLAG_DB_CREATE) c3wst "/a/b/c"
      c3_witness_step ?_ ?_ ?_⟩
  · intro q hq
    rw [hsub] at hq
    have h2 : s "/" ≠ s "/a" := by rw [sval_root, sval_a]; decide
    have h4 : s "/" ≠ s "/a/b" := by rw [sval_root, sval_ab]; decide
    fin_cases hq
    · unfold check
      rw [createDatabase_meta, mget_cons_ne _ _ _ _ h2, mget_nil]
    · unfold check
      rw [createDatabase_meta, mget_cons_ne _ _ _ _ h4, mget_nil]
  · rw [hsub]
    simp [sval_a, sval_ab]
  · rw [hsub]
    simp [sval_abc, sval_a, sval_ab]

/-! ### Claim C6: the Reader short-buffer contract -/

theorem goCopy_length (dst src : List Nat) : (goCopy dst src).length = dst.length := by
  unfold goCopy
  rw [List.length_append, List.length_take, List.length_drop]
  omega

theorem goCopy_take (dst src : List Nat) :
    (goCopy dst src).take (min dst.length src.length) =
      src.take (min dst.length src.length) := by
  unfold goCopy
  have hl : (src.take (min dst.length src.length)).length = min dst.length src.length := by
    rw [List.length_take]
    omega
  exact List.take_left' hl

/-- C6 (amended): over an existing non-directory entry with non-empty
payload, a short buffer yields count `len(payload) - len(buffer) - 1`, no
EOF, an offset advanced by `len(buffer)`, and a buffer holding the first
`min(len(buffer), count)` payload bytes (Go's copy truncates at the buffer
length); a buffer at least as long as the payload receives the whole
payload with `(len(payload), EOF)` and an unchanged offset. -/
theorem c6_reader_contract (st : FSHeader) (name : String) (e : govfsFile)
    (off : Nat) (r : List Nat)
    (hname : name ≠ "") (hc : check st name = some e)
    (hdir : e.flags &&& FLAG_DIRECTORY = 0) (hdata : e.data ≠ []) :
    (r.length < e.data.length →
      readerRead st ⟨name, off⟩ r =
        (e.data.length - r.length - 1, ReadRet.noErr,
          goCopy r (e.data.take (e.data.length - r.length - 1)),
          ⟨name, off + r.length⟩) ∧
      (goCopy r (e.data.take (e.data.length - r.length - 1))).length = r.length ∧
      (goCopy r (e.data.take (e.data.length - r.length - 1))).take
          (min r.length (e.data.length - r.length - 1)) =
        e.data.take (min r.length (e.data.length - r.length - 1))) ∧
    (e.data.length ≤ r.length →
      readerRead st ⟨name, off⟩ r =
        (e.data.length, ReadRet.eofErr, goCopy r e.data, ⟨name, off⟩)) := by
  have hlen0 : e.data.length ≠ 0 := fun hz => hdata (List.length_eq_zero.1 hz)
  have hread : fsRead st name = Except.ok e.data := by
    unfold fsRead
    rw [hc]
    show (if e.flags &&& FLAG_DIRECTORY > 0 then Except.error "read: Cannot read a directory" else Except.ok e.data) = Except.ok e.data
    rw [if_neg (by omega)]
  have hguard : ¬(name = "" ∨ (check st name).isNone ∨
      ((check st name).elim 0 (fun e => e.data.length)) < 1) := by
    push_neg
    refine ⟨hname, ?_, ?_⟩
    · rw [hc]; simp
    · rw [hc]
      simp only [Option.elim]
      omega
  constructor
  · intro hlt
    refine ⟨?_, goCopy_length r _, ?_⟩
    · unfold readerRead
      rw [if_neg hguard, hread]
      show (if e.data.length = 0 then ((0 : Nat), ReadRet.noErr, r, (⟨name, off⟩ : GoReader)) else if r.length < e.data.length then (e.data.length - r.length - 1, ReadRet.noErr, goCopy r (e.data.take (e.data.length - r.length - 1)), (⟨name, off + r.length⟩ : GoReader)) else (e.data.length, ReadRet.eofErr, goCopy r e.data, (⟨name, off⟩ : GoReader))) = _
      rw [if_neg hlen0, if_pos hlt]
    · have hN : (e.data.take (e.data.length - r.length - 1)).length =
          e.data.length - r.length - 1 := by
        rw [List.length_take]
        omega
      have h1 := goCopy_take r (e.data.take (e.data.length - r.length - 1))
      rw [hN] at h1
      rw [h1, List.take_take]
      congr 1
      omega
  · intro hge
    unfold readerRead
    rw [if_neg hguard, hread]
    show (if e.data.length = 0 then ((0 : Nat), ReadRet.noErr, r, (⟨name, off⟩ : GoReader)) else if r.length < e.data.length then (e.data.length - r.length - 1, ReadRet.noErr, goCopy r (e.data.take (e.data.length - r.length - 1)), (⟨name, off + r.length⟩ : GoReader)) else (e.data.length, ReadRet.eofErr, goCopy r e.data, (⟨name, off⟩ : GoReader))) = _
    rw [if_neg hlen0, if_neg (by omega)]

/-- C6 counterexample: a 10-byte payload read through a 3-byte buffer
reports 6 bytes but the buffer afterwards is `[1, 2, 3]` — only
min(3, 6) = 3 payload bytes were copied, so Read does not copy "exactly
len(payload) - len(buffer) - 1" bytes into the buffer. -/
theorem c6_counterexample :
    readerRead c6st ⟨"/a/f", 0⟩ [0, 0, 0] =
      (6, ReadRet.noErr, [1, 2, 3], ⟨"/a/f", 3⟩) ∧
    ([1, 2, 3] : List Nat) ≠ c6file.data.take 6 := by
  have hne : s "/" ≠ s "/a/f" := by rw [sval_root, sval_af]; decide
  have hchk : check c6st "/a/f" = some c6file := by
    unfold check
    show (match mget c6st.meta (s "/a/f") with | some (some e) => some e | _ => none) = some c6file
    rw [show c6st.meta = [(s "/", some rootFile), (s "/a/f", some c6file)] from rfl]
    rw [mget_cons_ne _ _ _ _ hne, mget_cons_eq]
  have hlen0 : c6file.data.length ≠ 0 := by decide
  have hread : fsRead c6st "/a/f" = Except.ok c6file.data := by
    unfold fsRead
    rw [hchk]
    show (if c6file.flags &&& FLAG_DIRECTORY > 0 then Except.error "read: Cannot read a directory" else Except.ok c6file.data) = Except.ok c6file.data
    rw [if_neg (by decide)]
  have hguard : ¬(("/a/f" : String) = "" ∨ (check c6st "/a/f").isNone ∨
      ((check c6st "/a/f").elim 0 (fun e => e.data.length)) < 1) := by
    push_neg
    refine ⟨by decide, ?_, ?_⟩
    · rw [hchk]; simp
    · rw [hchk]
      simp only [Option.elim]
      decide
  constructor
  · unfold readerRead
    rw [if_neg hguard, hread]
    rfl
  · decide

/-- Witness for C6: both branches of the contract at the 10-byte file, with
a 3-byte and a 10-byte buffer. -/
theorem c6_reader_contract_witness :
    readerRead c6st ⟨"/a/f", 0⟩ [0, 0, 0] =
      (c6file.data.length - 3 - 1, ReadRet.noErr,
        goCopy [0, 0, 0] (c6file.data.take (c6file.data.length - 3 - 1)), ⟨"/a/f", 0 + 3⟩) ∧
    readerRead c6st ⟨"/a/f", 0⟩ [0, 0, 0, 0, 0, 0, 0, 0, 0, 0] =
      (c6file.data.length, ReadRet.eofErr,
        goCopy [0, 0, 0, 0, 0, 0, 0, 0, 0, 0] c6file.data, ⟨"/a/f", 0⟩) := by
  have hne : s "/" ≠ s "/a/f" := by rw [sval_root, sval_af]; decide
  have hchk : check c6st "/a/f" = some c6file := by
    unfold check
    show (match mget c6st.meta (s "/a/f") with | some (some e) => some e | _ => none) = some c6file
    rw [show c6st.meta = [(s "/", some rootFile), (s "/a/f", some c6file)] from rfl]
    rw [mget_cons_ne _ _ _ _ hne, mget_cons_eq]
  constructor
  · exact ((c6_reader_contract c6st "/a/f" c6file 0 [0, 0, 0] (by decide) hchk (by decide)
      (by decide)).1 (by decide)).1
  · exact (c6_reader_contract c6st "/a/f" c6file 0 [0, 0, 0, 0, 0, 0, 0, 0, 0, 0] (by decide)
      hchk (by decide) (by decide)).2 (by decide)

/-! ### Claim C7: delete then re-create -/

/-- C7: a non-root resolving path (with a slash, within the length bound)
deletes successfully, afterwards resolves to nothing, and can then be
created again. -/
theorem c7_delete_then_create (st : FSHeader) (p : String) (e : govfsFile)
    (hc : check st p = some e) (hroot : e.filename ≠ "/")
    (hslash : '/' ∈ p.data) (hlen : p.length ≤ MAX_FILENAME_LENGTH) :
    (deleteOp st p).2 = OpResult.ok ∧
    check (deleteOp st p).1 p = none ∧
    ∃ st2, facadeCreate (deleteOp st p).1 p = some (st2, OpResult.ok) := by
  have hdel := deleteOp_present st p e hc hroot
  have hck : check (deleteOp st p).1 p = none := by
    rw [hdel]
    unfold check
    show (match mget (mset (mdel st.meta (s p)) (s p) none) (s p) with | some (some e) => some e | _ => none) = none
    rw [mget_mset_self]
  have h0 : p.length ≠ 0 := by
    intro hz
    have hd : p.data = [] := List.length_eq_zero.1 hz
    rw [hd] at hslash
    exact absurd hslash (List.not_mem_nil _)
  have h2 : 2 ≤ (splitSlash p.data).length := by
    rw [splitSlash_length]
    have : p.data.count '/' ≠ 0 := fun hz => (List.count_eq_zero.1 hz) hslash
    omega
  exact ⟨by rw [hdel], hck, _, facadeCreate_eq_ok _ p hck hlen h0 h2⟩

/-- Witness for C7 at the file `/a`. -/
theorem c7_delete_then_create_witness :
    (deleteOp c7st "/a").2 = OpResult.ok ∧
    check (deleteOp c7st "/a").1 "/a" = none ∧
    ∃ st2, facadeCreate (deleteOp c7st "/a").1 "/a" = some (st2, OpResult.ok) := by
  have hne : s "/" ≠ s "/a" := by rw [sval_root, sval_a]; decide
  have hchk : check c7st "/a" = some c7file := by
    unfold check
    show (match mget c7st.meta (s "/a") with | some (some e) => some e | _ => none) = some c7file
    rw [show c7st.meta = [(s "/", some rootFile), (s "/a", some c7file)] from rfl]
    rw [mget_cons_ne _ _ _ _ hne, mget_cons_eq]
  exact c7_delete_then_create c7st "/a" c7file hchk (by decide) (by decide) (by decide)

/-! ### Claim C9: delete re-binds the key to a nil slot -/

theorem mget_isSome_mem (l : Meta) (k : String) (h : (mget l k).isSome) :
    k ∈ l.map Prod.fst := by
  induction l with
  | nil => simp [mget] at h
  | cons hd t ih =>
    obtain ⟨k0, v⟩ := hd
    by_cases h0 : k0 = k
    · simp [h0]
    · rw [mget_cons_ne _ _ _ _ h0] at h
      simp [ih h]

theorem mget_mdel_self_nodup (l : Meta) (k : String)
    (hnd : (l.map Prod.fst).Nodup) (h : (mget l k).isSome) :
    mget (mdel l k) k = none := by
  induction l with
  | nil => simp [mget] at h
  | cons hd t ih =>
    obtain ⟨k0, v⟩ := hd
    simp only [List.map_cons, List.nodup_cons] at hnd
    by_cases h0 : k0 = k
    · subst h0
      rw [mdel_cons_eq]
      cases hmt : mget t k0 with
      | none => rfl
      | some w => exact absurd (mget_isSome_mem t k0 (by rw [hmt]; rfl)) hnd.1
    · rw [mget_cons_ne _ _ _ _ h0] at h
      rw [mdel_cons_ne _ _ _ _ h0, mget_cons_ne _ _ _ _ h0]
      exact ih hnd.2 h

theorem length_mset_absent (l : Meta) (k : String) (v : Option govfsFile)
    (h : mget l k = none) : (mset l k v).length = l.length + 1 := by
  induction l with
  | nil => simp [mset]
  | cons hd t ih =>
    obtain ⟨k0, w⟩ := hd
    by_cases h0 : k0 = k
    · rw [← h0, mget_cons_eq] at h
      exact absurd h (by simp)
    · rw [mget_cons_ne _ _ _ _ h0] at h
      rw [mset_cons_ne _ _ _ _ _ h0]
      simp [ih h]

/-- C9: a successful delete leaves the digest key present but bound to a
nil slot, so GetFileCount — and the file count UnmountDB derives from it —
is unchanged.  Stated for maps with pairwise-distinct keys, the Go map
invariant. -/
theorem c9_delete_keeps_key (st : FSHeader) (n : String) (e : govfsFile)
    (hnd : (st.meta.map Prod.fst).Nodup)
    (hc : check st n = some e) (hroot : e.filename ≠ "/") :
    deleteOp st n = ({ st with meta := mset (mdel st.meta (s n)) (s n) none }, OpResult.ok) ∧
    mget (deleteOp st n).1.meta (s n) = some none ∧
    GetFileCount (deleteOp st n).1 = GetFileCount st ∧
    unmountTotalFiles (deleteOp st n).1 = unmountTotalFiles st := by
  have h := deleteOp_present st n e hc hroot
  have hm : mget st.meta (s n) = some (some e) := (check_some_iff st n e).1 hc
  have hsome : (mget st.meta (s n)).isSome := by rw [hm]; rfl
  have habs : mget (mdel st.meta (s n)) (s n) = none :=
    mget_mdel_self_nodup st.meta (s n) hnd hsome
  have hlen : (mset (mdel st.meta (s n)) (s n) none).length = st.meta.length := by
    rw [length_mset_absent _ _ _ habs]
    have := length_mdel_isSome st.meta (s n) hsome
    omega
  refine ⟨h, ?_, ?_, ?_⟩
  · rw [h]
    exact mget_mset_self _ _ _
  · rw [h]
    exact hlen
  · rw [h]
    show (mset (mdel st.meta (s n)) (s n) none).length - 1 = st.meta.length - 1
    rw [hlen]

/-- Witness for C9 at the file `/a`. -/
theorem c9_delete_keeps_key_witness :
    deleteOp c9st "/a" =
      ({ c9st with meta := mset (mdel c9st.meta (s "/a")) (s "/a") none }, OpResult.ok) ∧
    mget (deleteOp c9st "/a").1.meta (s "/a") = some none ∧
    GetFileCount (deleteOp c9st "/a").1 = GetFileCount c9st ∧
    unmountTotalFiles (deleteOp c9st "/a").1 = unmountTotalFiles c9st := by
  have hne : s "/" ≠ s "/a" := by rw [sval_root, sval_a]; decide
  have hchk : check c9st "/a" = some c9file := by
    unfold check
    show (match mget c9st.meta (s "/a") with | some (some e) => some e | _ => none) = some c9file
    rw [show c9st.meta = [(s "/", some rootFile), (s "/a", some c9file)] from rfl]
    rw [mget_cons_ne _ _ _ _ hne, mget_cons_eq]
  refine c9_delete_keeps_key c9st "/a" c9file ?_ hchk (by decide)
  show ([(s "/", some rootFile), (s "/a", some c9file)].map Prod.fst).Nodup
  simp [sval_root, sval_a]
